import Mathlib

/-!
Shallow embedding of the mqtt-proto codec (MQTT v3.1.1 / v5.0 packet
encoder and decoder) and proofs about it.

Bytes are modelled as natural numbers (each expected to be below 256) and
byte buffers as lists of naturals.  Decoders are state-passing functions
from an input buffer to either an error or a value paired with the
unconsumed remainder of the buffer, mirroring the `(buf, offset)` slice
readers and the async stream readers of the source, which perform the
same sequence of reads.  Bit-mask tests on single bytes are translated to
division/modulo arithmetic (for a byte `b`, `b & 1` is `b % 2`,
`b & 0b11000 >> 3` is `b / 8 % 4`, the nibble `b >> 4` is `b / 16`, and
so on), which is equivalent for values below 256.
-/

set_option maxHeartbeats 1000000
set_option maxRecDepth 100000

deriving instance DecidableEq for Except

namespace Mqtt

/-- Protocol versions, identified on the wire by a (name, level) pair.
Modelled from the spec: `common/types.rs` is not in the sources; §3.1 gives
the pairs MQIsdp/3, MQTT/4 and MQTT/5, and the numeric value of the enum
(`protocol as u8`) is the wire level byte, as used by the
`protocol as u8 > 4` test in `v3/connect.rs`. -/
inductive Protocol
  | V310
  | V311
  | V50
  deriving DecidableEq, Repr

/-- The wire level byte of a protocol, also the value of `protocol as u8`. -/
def Protocol.asU8 : Protocol → Nat
  | .V310 => 3
  | .V311 => 4
  | .V50 => 5

/-- Quality of service levels. -/
inductive QoS
  | Level0
  | Level1
  | Level2
  deriving DecidableEq, Repr

def QoS.toU8 : QoS → Nat
  | .Level0 => 0
  | .Level1 => 1
  | .Level2 => 2

/-- Sum of QoS and packet identifier: QoS 0 carries no Pid, QoS 1/2 do.
The identifier is a nonzero 16-bit value. -/
inductive QosPid
  | Level0
  | Level1 (pid : Nat)
  | Level2 (pid : Nat)
  deriving DecidableEq, Repr

/-- The error taxonomy of the v3 codec (`common/error.rs` is not in the
sources; the variants and their payloads are those listed in §7 of the
spec and used by the decoders in `v3/connect.rs` and `v3/subscribe.rs`).
End-of-input is a single `unexpectedEof` variant; `Error::is_eof`
recognises exactly it. -/
inductive Error
  | unexpectedEof
  | invalidHeader
  | invalidVarByteInt
  | invalidRemainingLength
  | invalidProtocol (name : List Nat) (level : Nat)
  | unexpectedProtocol (p : Protocol)
  | invalidConnectFlags (flags : Nat)
  | invalidConnackFlags (flags : Nat)
  | invalidConnectReturnCode (code : Nat)
  | invalidQos (value : Nat)
  | invalidPid
  | invalidString
  | emptyTopic
  | invalidTopic
  | emptySubscription
  deriving DecidableEq, Repr

/-- Whether an error is the end-of-input error (`Error::is_eof`). -/
def Error.isEof : Error → Bool
  | .unexpectedEof => true
  | _ => false

/-! ## The decoder monad

A decoder takes the input buffer and returns an error or a value together
with the unconsumed rest of the buffer. -/

def DecE (ε α : Type) : Type := List Nat → Except ε (α × List Nat)

/-- Decoders over the v3 error type. -/
abbrev Dec (α : Type) : Type := DecE Error α

namespace DecE

variable {ε α β γ : Type}

def pure (a : α) : DecE ε α := fun s => .ok (a, s)

def bind (d : DecE ε α) (f : α → DecE ε β) : DecE ε β := fun s =>
  match d s with
  | .ok (a, rest) => f a rest
  | .error e => .error e

def fail (e : ε) : DecE ε α := fun _ => .error e

/-- Lift a pure fallible computation into the decoder monad. -/
def ofExcept (x : Except ε α) : DecE ε α := fun s =>
  match x with
  | .ok a => .ok (a, s)
  | .error e => .error e

instance : Monad (DecE ε) where
  pure := DecE.pure
  bind := DecE.bind

theorem bind_def (d : DecE ε α) (f : α → DecE ε β) :
    (d >>= f) = DecE.bind d f := rfl

theorem pure_def (a : α) : (Pure.pure a : DecE ε α) = DecE.pure a := rfl

@[simp] theorem pure_apply (a : α) (s : List Nat) :
    (DecE.pure a : DecE ε α) s = .ok (a, s) := rfl

@[simp] theorem fail_apply (e : ε) (s : List Nat) :
    (DecE.fail e : DecE ε α) s = .error e := rfl

@[simp] theorem ofExcept_ok (a : α) (s : List Nat) :
    (DecE.ofExcept (.ok a) : DecE ε α) s = .ok (a, s) := rfl

@[simp] theorem ofExcept_error (e : ε) (s : List Nat) :
    (DecE.ofExcept (.error e) : DecE ε α) s = .error e := rfl

theorem bind_assoc (d : DecE ε α) (f : α → DecE ε β) (g : β → DecE ε γ) :
    DecE.bind (DecE.bind d f) g = DecE.bind d (fun a => DecE.bind (f a) g) := by
  funext s
  simp only [DecE.bind]
  cases d s with
  | error e => rfl
  | ok p =>
    obtain ⟨a, r⟩ := p
    rfl

theorem bind_pure (a : α) (f : α → DecE ε β) :
    DecE.bind (Pure.pure a) f = f a := rfl

theorem bind_apply (d : DecE ε α) (f : α → DecE ε β) (s : List Nat) :
    (DecE.bind d f) s =
      match d s with
      | .ok (a, rest) => f a rest
      | .error e => .error e := rfl

@[simp] theorem bind_eval {d : DecE ε α} {s : List Nat} {a : α} {rest : List Nat}
    (h : d s = .ok (a, rest)) (f : α → DecE ε β) :
    (DecE.bind d f) s = f a rest := by
  simp [DecE.bind_apply, h]

@[simp] theorem bind_eval_err {d : DecE ε α} {s : List Nat} {e : ε}
    (h : d s = .error e) (f : α → DecE ε β) :
    (DecE.bind d f) s = .error e := by
  simp [DecE.bind_apply, h]

end DecE

/-! ## Primitive readers and writers

These model `read_u8`, `read_u16`, `read_bytes`, `read_string` and their
`write_*` duals (`common/utils.rs` is not in the sources; contracts are
from §4.1 of the spec: u16 values are big-endian, byte/string fields carry
a 16-bit big-endian length prefix, strings are UTF-8 validated and fail
with `InvalidString`, and reads past the end of input fail with
`UnexpectedEof`). -/

def readU8 : Dec Nat := fun s =>
  match s with
  | [] => .error .unexpectedEof
  | b :: rest => .ok (b, rest)

def readU16 : Dec Nat := do
  let hi ← readU8
  let lo ← readU8
  pure (hi * 256 + lo)

/-- Read exactly `n` raw bytes. -/
def readExact (n : Nat) : Dec (List Nat) := fun s =>
  if n ≤ s.length then .ok (s.take n, s.drop n) else .error .unexpectedEof

/-- Read a 16-bit length prefix and then that many raw bytes. -/
def readBytes : Dec (List Nat) := do
  let n ← readU16
  readExact n

/-- Whether a byte is a UTF-8 continuation byte (`0x80 ..= 0xBF`). -/
def isCont (b : Nat) : Bool := 128 ≤ b && b < 192

/-- Exact UTF-8 validation of a byte sequence (RFC 3629: no overlong
forms, no surrogates, nothing above U+10FFFF), the check performed by
`read_string` and by `simdutf8::basic::from_utf8` in `v5/publish.rs`. -/
def utf8Valid : List Nat → Bool
  | [] => true
  | b :: rest =>
    if b < 128 then utf8Valid rest
    else if b < 194 then false
    else if b < 224 then
      match rest with
      | c1 :: r => isCont c1 && utf8Valid r
      | [] => false
    else if b = 224 then
      match rest with
      | c1 :: c2 :: r => (160 ≤ c1 && c1 < 192) && isCont c2 && utf8Valid r
      | _ => false
    else if b < 237 then
      match rest with
      | c1 :: c2 :: r => isCont c1 && isCont c2 && utf8Valid r
      | _ => false
    else if b = 237 then
      match rest with
      | c1 :: c2 :: r => (128 ≤ c1 && c1 < 160) && isCont c2 && utf8Valid r
      | _ => false
    else if b < 240 then
      match rest with
      | c1 :: c2 :: r => isCont c1 && isCont c2 && utf8Valid r
      | _ => false
    else if b = 240 then
      match rest with
      | c1 :: c2 :: c3 :: r =>
        (144 ≤ c1 && c1 < 192) && isCont c2 && isCont c3 && utf8Valid r
      | _ => false
    else if b < 244 then
      match rest with
      | c1 :: c2 :: c3 :: r => isCont c1 && isCont c2 && isCont c3 && utf8Valid r
      | _ => false
    else if b = 244 then
      match rest with
      | c1 :: c2 :: c3 :: r =>
        (128 ≤ c1 && c1 < 144) && isCont c2 && isCont c3 && utf8Valid r
      | _ => false
    else false

/-- Read a 16-bit length-prefixed UTF-8 string, as raw validated bytes. -/
def readString : Dec (List Nat) := do
  let s ← readBytes
  if utf8Valid s then pure s else DecE.fail .invalidString

def writeU8 (v : Nat) : List Nat := [v]

/-- Big-endian 16-bit write; faithful for `v < 65536`. -/
def writeU16 (v : Nat) : List Nat := [v / 256, v % 256]

def writeBytes (s : List Nat) : List Nat := writeU16 s.length ++ s

def writeString (s : List Nat) : List Nat := writeBytes s

/-- Decode an MQTT variable-length integer: up to 4 bytes, 7 value bits
per byte, least-significant group first; a 4th byte with the continuation
bit still set is `InvalidVarByteInt`.  For a byte `b`, the continuation
bit test `b & 0x80 == 0` is `b < 128` and the payload `b & 0x7F` is
`b % 128`. -/
def decodeVarInt : Dec Nat := do
  let b0 ← readU8
  if b0 < 128 then pure b0 else do
    let b1 ← readU8
    if b1 < 128 then pure (b0 % 128 + b1 * 128) else do
      let b2 ← readU8
      if b2 < 128 then pure (b0 % 128 + b1 % 128 * 128 + b2 * 16384) else do
        let b3 ← readU8
        if b3 < 128 then
          pure (b0 % 128 + b1 % 128 * 128 + b2 % 128 * 16384 + b3 * 2097152)
        else DecE.fail .invalidVarByteInt

/-- Encode an MQTT variable-length integer; faithful for
`n < 268435456`. -/
def encodeVarInt (n : Nat) : List Nat :=
  if n < 128 then [n]
  else if n < 16384 then [n % 128 + 128, n / 128]
  else if n < 2097152 then [n % 128 + 128, n / 128 % 128 + 128, n / 16384]
  else [n % 128 + 128, n / 128 % 128 + 128, n / 16384 % 128 + 128, n / 2097152]

/-- `var_int_len(value)`: the wire size of a variable-length integer. -/
def varIntLen (n : Nat) : Nat :=
  if n < 128 then 1 else if n < 16384 then 2 else if n < 2097152 then 3 else 4

/-- `checked_sub` on the running remaining-length guard: underflow is
`InvalidRemainingLength` (§4.4 of the spec, `v3/subscribe.rs`). -/
def checkedSub (a b : Nat) : Except Error Nat :=
  if b ≤ a then .ok (a - b) else .error .invalidRemainingLength

/-! ## Typed values -/

/-- `QoS::from_u8`: `{0, 1, 2}` accepted, anything else is
`InvalidQos(b)`. -/
def QoS.fromU8 (b : Nat) : Except Error QoS :=
  if b = 0 then .ok .Level0
  else if b = 1 then .ok .Level1
  else if b = 2 then .ok .Level2
  else .error (.invalidQos b)

/-- `Pid::try_from` composed with `read_u16`: a 16-bit identifier that
must be nonzero, else `InvalidPid`. -/
def readPid : Dec Nat := do
  let v ← readU16
  if v = 0 then DecE.fail .invalidPid else pure v

/-- Bytes that are neither `#` (35) nor `+` (43). -/
def noWildcard (s : List Nat) : Bool := s.all (fun b => b ≠ 35 && b ≠ 43)

/-- Topic-name validity. Modelled from the spec (§3.1, `common/types.rs`
is not in the sources): non-empty UTF-8, no `+` or `#`, no embedded
NUL. -/
def topicNameValid (s : List Nat) : Bool :=
  !s.isEmpty && utf8Valid s && s.all (fun b => b ≠ 35 && b ≠ 43 && b ≠ 0)

/-- `TopicName::try_from`. Modelled from the spec (§4.2): failure kinds
`EmptyTopic` for the empty string and `InvalidTopic` otherwise. -/
def topicNameCheck (s : List Nat) : Except Error Unit :=
  if s.isEmpty then .error .emptyTopic
  else if topicNameValid s then .ok () else .error .invalidTopic

/-- One topic-filter level: `#` only in final position, `+` alone in its
level, otherwise no wildcard characters. -/
def levelOk (isLast : Bool) (l : List Nat) : Bool :=
  if l = [35] then isLast
  else if l = [43] then true
  else noWildcard l

def levelsOk : List (List Nat) → Bool
  | [] => true
  | [l] => levelOk true l
  | l :: rest => levelOk false l && levelsOk rest

/-- Topic-filter validity. Modelled from the spec (§3.1): non-empty
UTF-8; `+` occupies exactly one level; `#` occupies exactly one level and
must be final; a `$share/{group}/{filter}` shared subscription needs a
nonempty wildcard-free group and a nonempty filter part. The level
separator is `/` (47) and the shared marker is the byte form of
`$share/`. -/
def topicFilterValid (s : List Nat) : Bool :=
  !s.isEmpty && utf8Valid s &&
    (if [36, 115, 104, 97, 114, 101, 47].isPrefixOf s then
      match (s.drop 7).splitOn 47 with
      | g :: f :: fs =>
        !g.isEmpty && noWildcard g && !(f.isEmpty && fs.isEmpty) && levelsOk (f :: fs)
      | _ => false
    else levelsOk (s.splitOn 47))

/-- `TopicFilter::try_from`. Modelled from the spec (§4.2). -/
def topicFilterCheck (s : List Nat) : Except Error Unit :=
  if s.isEmpty then .error .emptyTopic
  else if topicFilterValid s then .ok () else .error .invalidTopic

/-- Name bytes of a protocol (`MQIsdp` for V310, `MQTT` for V311/V50). -/
def Protocol.name : Protocol → List Nat
  | .V310 => [77, 81, 73, 115, 100, 112]
  | .V311 => [77, 81, 84, 84]
  | .V50 => [77, 81, 84, 84]

/-- `Protocol::decode`. Modelled from the spec (§4.2): read a
length-prefixed name and a one-byte level and map the pair to the enum,
any other pair failing with `InvalidProtocol(name, level)`. -/
def Protocol.decode : Dec Protocol := do
  let name ← readBytes
  let level ← readU8
  if name = [77, 81, 73, 115, 100, 112] ∧ level = 3 then pure .V310
  else if name = [77, 81, 84, 84] ∧ level = 4 then pure .V311
  else if name = [77, 81, 84, 84] ∧ level = 5 then pure .V50
  else DecE.fail (.invalidProtocol name level)

/-- `Protocol::encode`: name then level, unconditionally. -/
def Protocol.encode (p : Protocol) : List Nat :=
  writeString p.name ++ writeU8 p.asU8

def Protocol.encodeLen (p : Protocol) : Nat := 2 + p.name.length + 1

/-! ## v3 packet bodies -/

/-- Return code of a Connack packet (`v3/connect.rs`). -/
inductive ConnectReturnCode
  | accepted
  | unacceptableProtocolVersion
  | identifierRejected
  | serverUnavailable
  | badUserNameOrPassword
  | notAuthorized
  deriving DecidableEq, Repr

/-- `ConnectReturnCode::from_u8` (`v3/connect.rs`). -/
def ConnectReturnCode.fromU8 (b : Nat) : Except Error ConnectReturnCode :=
  if b = 0 then .ok .accepted
  else if b = 1 then .ok .unacceptableProtocolVersion
  else if b = 2 then .ok .identifierRejected
  else if b = 3 then .ok .serverUnavailable
  else if b = 4 then .ok .badUserNameOrPassword
  else if b = 5 then .ok .notAuthorized
  else .error (.invalidConnectReturnCode b)

/-- Will message of a Connect packet (`v3/connect.rs`, `LastWill`). -/
structure LastWill where
  qos : QoS
  retain : Bool
  topic_name : List Nat
  message : List Nat
  deriving DecidableEq, Repr

/-- Connect packet body (`v3/connect.rs`). Strings are UTF-8 byte
sequences. -/
structure Connect where
  protocol : Protocol
  clean_session : Bool
  keep_alive : Nat
  client_id : List Nat
  last_will : Option LastWill
  username : Option (List Nat)
  password : Option (List Nat)
  deriving DecidableEq, Repr

/-- `Connect::decode_buffer_with_protocol` / the identical
`decode_stream_with_protocol` (`v3/connect.rs` lines 65-167).  For a
flags byte below 256: bit 0 is `flags % 2`, bit 1 is `flags / 2 % 2`,
bit 2 is `flags / 4 % 2`, bits 3-4 are `flags / 8 % 4`, bit 5 is
`flags / 32 % 2`, bit 6 is `flags / 64 % 2`, bit 7 is
`flags / 128 % 2`. -/
def Connect.decodeWithProtocol (protocol : Protocol) : Dec Connect := do
  if 4 < protocol.asU8 then DecE.fail (.unexpectedProtocol protocol) else do
  let connect_flags ← readU8
  if connect_flags % 2 ≠ 0 then DecE.fail (.invalidConnectFlags connect_flags) else do
  let keep_alive ← readU16
  let client_id ← readString
  let last_will ← (if connect_flags / 4 % 2 ≠ 0 then do
      let topic_name ← readString
      let message ← readBytes
      let qos ← DecE.ofExcept (QoS.fromU8 (connect_flags / 8 % 4))
      DecE.ofExcept (topicNameCheck topic_name)
      pure (some { qos, retain := connect_flags / 32 % 2 == 1, topic_name,
                   message : LastWill })
    else if connect_flags / 8 % 4 ≠ 0 then DecE.fail (.invalidConnectFlags connect_flags)
    else pure none)
  let username ← (if connect_flags / 128 % 2 ≠ 0 then do
      let u ← readString
      pure (some u)
    else pure none)
  let password ← (if connect_flags / 64 % 2 ≠ 0 then do
      let p ← readBytes
      pure (some p)
    else pure none)
  pure { protocol, clean_session := connect_flags / 2 % 2 == 1, keep_alive,
         client_id, last_will, username, password }

/-- `Connect::decode`: protocol first, then the rest of the body. -/
def Connect.decode : Dec Connect := do
  let protocol ← Protocol.decode
  Connect.decodeWithProtocol protocol

/-- `LastWill::encode` (`v3/connect.rs`). -/
def LastWill.encode (w : LastWill) : List Nat :=
  writeString w.topic_name ++ writeBytes w.message

def LastWill.encodeLen (w : LastWill) : Nat :=
  4 + w.topic_name.length + w.message.length

/-- The connect-flags byte assembled by `Connect::encode`: the source
ors together disjoint bits, written here as a sum of the same disjoint
contributions. -/
def Connect.flagsByte (c : Connect) : Nat :=
  (if c.clean_session then 2 else 0) +
  (if c.username.isSome then 128 else 0) +
  (if c.password.isSome then 64 else 0) +
  (match c.last_will with
   | some w => 4 + w.qos.toU8 * 8 + (if w.retain then 32 else 0)
   | none => 0)

/-- `impl Encodable for Connect`, `encode` (`v3/connect.rs` lines
170-204). -/
def Connect.encode (c : Connect) : List Nat :=
  c.protocol.encode ++ writeU8 c.flagsByte ++ writeU16 c.keep_alive ++
  writeString c.client_id ++
  (match c.last_will with | some w => w.encode | none => []) ++
  (match c.username with | some u => writeString u | none => []) ++
  (match c.password with | some p => writeBytes p | none => [])

/-- `Connect::encode_len` (`v3/connect.rs` lines 206-222). -/
def Connect.encodeLen (c : Connect) : Nat :=
  c.protocol.encodeLen + 1 + 2 + (2 + c.client_id.length) +
  (match c.last_will with | some w => w.encodeLen | none => 0) +
  (match c.username with | some u => 2 + u.length | none => 0) +
  (match c.password with | some p => 2 + p.length | none => 0)

/-- Connack packet body (`v3/connect.rs`). -/
structure Connack where
  session_present : Bool
  code : ConnectReturnCode
  deriving DecidableEq, Repr

/-- `Connack::decode` (`v3/connect.rs` lines 241-252). -/
def Connack.decode : Dec Connack := do
  let flag ← readU8
  let session_present ←
    (if flag = 0 then pure false
     else if flag = 1 then pure true
     else DecE.fail (.invalidConnackFlags flag))
  let cb ← readU8
  let code ← DecE.ofExcept (ConnectReturnCode.fromU8 cb)
  pure { session_present, code }

/-! ## Fixed header -/

/-- v3 packet types (codes 1 to 14). -/
inductive PacketType
  | connect
  | connack
  | publish
  | puback
  | pubrec
  | pubrel
  | pubcomp
  | subscribe
  | suback
  | unsubscribe
  | unsuback
  | pingreq
  | pingresp
  | disconnect
  deriving DecidableEq, Repr

/-- v3 fixed header (type, Publish flag bits, remaining length). -/
structure Header where
  typ : PacketType
  dup : Bool
  qos : QoS
  retain : Bool
  remainingLen : Nat
  deriving DecidableEq, Repr

/-- `Header::new_with(byte, remaining_len)`. Modelled from the spec
(§4.3, `v3/mod.rs` is not in the sources) and pinned by
`test_header_firstbyte` in `v3/tests/decoder.rs`: the type nibble is
`hd / 16`, the flags nibble `hd % 16`; Pubrel, Subscribe and Unsubscribe
require flags `0010`, Publish carries dup (`flags / 8 % 2`), QoS
(`flags / 2 % 4`, value 3 rejected through `QoS::from_u8`) and retain
(`flags % 2`), every other defined type requires flags `0000`, and the
reserved type nibbles 0 and 15 are `InvalidHeader`. -/
def Header.newWith (hd rl : Nat) : Except Error Header :=
  let typ := hd / 16
  let flags := hd % 16
  if typ = 1 then
    if flags = 0 then .ok ⟨.connect, false, .Level0, false, rl⟩ else .error .invalidHeader
  else if typ = 2 then
    if flags = 0 then .ok ⟨.connack, false, .Level0, false, rl⟩ else .error .invalidHeader
  else if typ = 3 then
    match QoS.fromU8 (flags / 2 % 4) with
    | .error e => .error e
    | .ok q => .ok ⟨.publish, flags / 8 % 2 == 1, q, flags % 2 == 1, rl⟩
  else if typ = 4 then
    if flags = 0 then .ok ⟨.puback, false, .Level0, false, rl⟩ else .error .invalidHeader
  else if typ = 5 then
    if flags = 0 then .ok ⟨.pubrec, false, .Level0, false, rl⟩ else .error .invalidHeader
  else if typ = 6 then
    if flags = 2 then .ok ⟨.pubrel, false, .Level0, false, rl⟩ else .error .invalidHeader
  else if typ = 7 then
    if flags = 0 then .ok ⟨.pubcomp, false, .Level0, false, rl⟩ else .error .invalidHeader
  else if typ = 8 then
    if flags = 2 then .ok ⟨.subscribe, false, .Level0, false, rl⟩ else .error .invalidHeader
  else if typ = 9 then
    if flags = 0 then .ok ⟨.suback, false, .Level0, false, rl⟩ else .error .invalidHeader
  else if typ = 10 then
    if flags = 2 then .ok ⟨.unsubscribe, false, .Level0, false, rl⟩ else .error .invalidHeader
  else if typ = 11 then
    if flags = 0 then .ok ⟨.unsuback, false, .Level0, false, rl⟩ else .error .invalidHeader
  else if typ = 12 then
    if flags = 0 then .ok ⟨.pingreq, false, .Level0, false, rl⟩ else .error .invalidHeader
  else if typ = 13 then
    if flags = 0 then .ok ⟨.pingresp, false, .Level0, false, rl⟩ else .error .invalidHeader
  else if typ = 14 then
    if flags = 0 then .ok ⟨.disconnect, false, .Level0, false, rl⟩ else .error .invalidHeader
  else .error .invalidHeader

/-- `Header::decode`: first byte, then the variable-length remaining
length, then validation through `new_with`. -/
def Header.decode : Dec Header := do
  let hd ← readU8
  let rl ← decodeVarInt
  DecE.ofExcept (Header.newWith hd rl)

/-- v3 Publish body (`v3/publish.rs` is not in the sources). Modelled
from the spec (§4.4): topic name, Pid iff QoS is at least 1, then the
payload is the remainder of the `remaining_len` bytes. -/
structure Publish where
  dup : Bool
  retain : Bool
  qos_pid : QosPid
  topic_name : List Nat
  payload : List Nat
  deriving DecidableEq, Repr

/-- v3 `Publish::decode`. Modelled from the spec (§4.4) and
`test_decode_publish`: read the topic name, a Pid when the header QoS is
1 or 2, then the payload as the rest of the declared remaining length,
the running guard underflowing to `InvalidRemainingLength`. -/
def Publish.decode (header : Header) : Dec Publish := do
  let topic_name ← readString
  DecE.ofExcept (topicNameCheck topic_name)
  let rem1 ← DecE.ofExcept (checkedSub header.remainingLen (2 + topic_name.length))
  let (qos_pid, rem2) ← (
    match header.qos with
    | .Level0 => pure (QosPid.Level0, rem1)
    | .Level1 => do
        let pid ← readPid
        let r ← DecE.ofExcept (checkedSub rem1 2)
        pure (QosPid.Level1 pid, r)
    | .Level2 => do
        let pid ← readPid
        let r ← DecE.ofExcept (checkedSub rem1 2)
        pure (QosPid.Level2 pid, r)
    : Dec (QosPid × Nat))
  let payload ← readExact rem2
  pure { dup := header.dup, retain := header.retain, qos_pid, topic_name, payload }

/-- Subscribe return code (`v3/subscribe.rs`). -/
inductive SubscribeReturnCode
  | maxLevel0
  | maxLevel1
  | maxLevel2
  | failure
  deriving DecidableEq, Repr

/-- `SubscribeReturnCode::from_u8` (`v3/subscribe.rs` lines 235-245). -/
def SubscribeReturnCode.fromU8 (b : Nat) : Except Error SubscribeReturnCode :=
  if b = 128 then .ok .failure
  else if b = 0 then .ok .maxLevel0
  else if b = 1 then .ok .maxLevel1
  else if b = 2 then .ok .maxLevel2
  else .error (.invalidQos b)

structure Subscribe where
  pid : Nat
  topics : List (List Nat × QoS)
  deriving DecidableEq, Repr

structure Suback where
  pid : Nat
  topics : List SubscribeReturnCode
  deriving DecidableEq, Repr

structure Unsubscribe where
  pid : Nat
  topics : List (List Nat)
  deriving DecidableEq, Repr

/-- Shape of a successful single-byte read. -/
theorem readU8_ok {s : List Nat} {b : Nat} {rest : List Nat}
    (h : readU8 s = .ok (b, rest)) : s = b :: rest := by
  match s with
  | [] => simp [readU8] at h
  | x :: t =>
    simp only [readU8, Except.ok.injEq, Prod.mk.injEq] at h
    rw [h.1, h.2]

/-- Shape of a successful big-endian 16-bit read. -/
theorem readU16_ok {s : List Nat} {v : Nat} {rest : List Nat}
    (h : readU16 s = .ok (v, rest)) :
    ∃ b0 b1, s = b0 :: b1 :: rest ∧ v = b0 * 256 + b1 := by
  match s with
  | [] => simp [readU16, readU8, DecE.bind_def, DecE.bind] at h
  | [b0] => simp [readU16, readU8, DecE.bind_def, DecE.bind] at h
  | b0 :: b1 :: t =>
    refine ⟨b0, b1, ?_⟩
    simp only [readU16, readU8, DecE.bind_def, DecE.bind, DecE.pure_def, DecE.pure,
      Except.ok.injEq, Prod.mk.injEq] at h
    rw [h.2, h.1]
    exact ⟨rfl, rfl⟩

/-- A successful `readExact` run splits the input. -/
theorem readExact_ok {n : Nat} {s a rest : List Nat}
    (h : readExact n s = .ok (a, rest)) : a.length = n ∧ s = a ++ rest := by
  unfold readExact at h
  split at h
  · simp only [Except.ok.injEq, Prod.mk.injEq] at h
    obtain ⟨h1, h2⟩ := h
    subst h1
    subst h2
    refine ⟨?_, (List.take_append_drop n s).symm⟩
    simp only [List.length_take]
    omega
  · simp at h

/-- A successful `read_bytes` consumes exactly its length prefix plus the
payload. -/
theorem readBytes_ok {s a rest : List Nat}
    (h : readBytes s = .ok (a, rest)) :
    s.length = 2 + a.length + rest.length := by
  cases hu : readU16 s with
  | error e => simp [readBytes, DecE.bind_def, DecE.bind, hu] at h
  | ok p =>
    obtain ⟨v, s1⟩ := p
    simp only [readBytes, DecE.bind_def, DecE.bind, hu] at h
    obtain ⟨b0, b1, hs, -⟩ := readU16_ok hu
    obtain ⟨-, hsplit⟩ := readExact_ok h
    subst hs
    subst hsplit
    simp only [List.length_cons, List.length_append]
    omega

/-- A successful `read_string` consumes exactly its length prefix plus
the payload. -/
theorem readString_ok {s a rest : List Nat}
    (h : readString s = .ok (a, rest)) :
    s.length = 2 + a.length + rest.length := by
  cases hb : readBytes s with
  | error e => simp [readString, DecE.bind_def, DecE.bind, hb] at h
  | ok p =>
    obtain ⟨a', s1⟩ := p
    simp only [readString, DecE.bind_def, DecE.bind, hb] at h
    split at h
    · simp only [DecE.pure_def, DecE.pure, Except.ok.injEq, Prod.mk.injEq] at h
      obtain ⟨h1, h2⟩ := h
      subst h1
      subst h2
      exact readBytes_ok hb
    · simp [DecE.fail] at h

/-- A successful `read_string` consumes at least its 2-byte length
prefix. -/
theorem readString_consumes {s : List Nat} {f s1 : List Nat}
    (h : readString s = .ok (f, s1)) : s1.length + 2 ≤ s.length := by
  have := readString_ok h
  omega

/-- The `(filter, qos)` loop of `Subscribe::decode_async`
(`v3/subscribe.rs` lines 72-80): read entries while the running
remaining length is positive, subtracting `3 + filter.len()` with
underflow as `InvalidRemainingLength`. -/
def subscribeTopicsAsync (rl : Nat) : Dec (List (List Nat × QoS)) :=
  if rl = 0 then DecE.pure []
  else
    DecE.bind readString fun filter =>
    DecE.bind (DecE.ofExcept (topicFilterCheck filter)) fun _ =>
    DecE.bind readU8 fun qb =>
    DecE.bind (DecE.ofExcept (QoS.fromU8 qb)) fun q =>
    if 3 + filter.length ≤ rl then
      DecE.bind (subscribeTopicsAsync (rl - (3 + filter.length))) fun rest =>
      DecE.pure ((filter, q) :: rest)
    else DecE.fail .invalidRemainingLength
  termination_by rl
  decreasing_by omega

/-- `Subscribe::decode_async` (`v3/subscribe.rs` lines 60-82): Pid, the
remaining-length guard, `EmptySubscription` when no entry follows, then
the entry loop. -/
def Subscribe.decode (header : Header) : Dec Subscribe := do
  let pid ← readPid
  let rl ← DecE.ofExcept (checkedSub header.remainingLen 2)
  if rl = 0 then DecE.fail .emptySubscription else do
  let topics ← subscribeTopicsAsync rl
  pure { pid, topics }

/-- The entry loop of the buffer-based `Subscribe::decode`
(`v3/subscribe.rs` lines 48-56): unlike the async loop it runs while the
buffer has bytes left, still subtracting from the running guard. -/
def subscribeTopicsBuf (rl : Nat) (s : List Nat) :
    Except Error (List (List Nat × QoS)) :=
  match s with
  | [] => .ok []
  | _ :: _ =>
    match readString s with
    | .error e => .error e
    | .ok (filter, s1) =>
      match topicFilterCheck filter with
      | .error e => .error e
      | .ok _ =>
        match s1 with
        | [] => .error .unexpectedEof
        | qb :: s2 =>
          match QoS.fromU8 qb with
          | .error e => .error e
          | .ok q =>
            if 3 + filter.length ≤ rl then
              match subscribeTopicsBuf (rl - (3 + filter.length)) s2 with
              | .error e => .error e
              | .ok rest => .ok ((filter, q) :: rest)
            else .error .invalidRemainingLength
  termination_by rl
  decreasing_by omega

/-- Buffer-based `Subscribe::decode` (`v3/subscribe.rs` lines 39-58),
used by the streaming assembler over the completed body buffer; the
whole buffer is consumed. -/
def Subscribe.decodeBuf (header : Header) : Dec Subscribe :=
  DecE.bind readPid fun pid =>
  DecE.bind (DecE.ofExcept (checkedSub header.remainingLen 2)) fun rl =>
  fun s =>
    if s.isEmpty then .error .emptySubscription
    else
      match subscribeTopicsBuf rl s with
      | .error e => .error e
      | .ok topics => .ok ({ pid, topics }, [])

/-- The return-code loop of `Suback::decode_async` (`v3/subscribe.rs`
lines 134-140): one byte per entry while the guard is positive. -/
def subackTopics : Nat → Dec (List SubscribeReturnCode)
  | 0 => DecE.pure []
  | rl + 1 => do
    let b ← readU8
    let code ← DecE.ofExcept (SubscribeReturnCode.fromU8 b)
    let rest ← subackTopics rl
    pure (code :: rest)

/-- `Suback::decode_async` (`v3/subscribe.rs` lines 125-142). -/
def Suback.decode (header : Header) : Dec Suback := do
  let pid ← readPid
  let rl ← DecE.ofExcept (checkedSub header.remainingLen 2)
  let topics ← subackTopics rl
  pure { pid, topics }

/-- The filter loop of `Unsubscribe::decode_async` (`v3/subscribe.rs`
lines 195-202): read filters while the guard is positive, subtracting
`2 + filter.len()`. -/
def unsubscribeTopics (rl : Nat) : Dec (List (List Nat)) :=
  if rl = 0 then DecE.pure []
  else
    DecE.bind readString fun filter =>
    DecE.bind (DecE.ofExcept (topicFilterCheck filter)) fun _ =>
    if 2 + filter.length ≤ rl then
      DecE.bind (unsubscribeTopics (rl - (2 + filter.length))) fun rest =>
      DecE.pure (filter :: rest)
    else DecE.fail .invalidRemainingLength
  termination_by rl
  decreasing_by omega

/-- `Unsubscribe::decode_async` and the identical buffer `decode`
(`v3/subscribe.rs` lines 163-204): Pid, guard, `EmptySubscription` when
the body holds only the Pid, then the filter loop. -/
def Unsubscribe.decode (header : Header) : Dec Unsubscribe := do
  let pid ← readPid
  let rl ← DecE.ofExcept (checkedSub header.remainingLen 2)
  if rl = 0 then DecE.fail .emptySubscription else do
  let topics ← unsubscribeTopics rl
  pure { pid, topics }

/-! ## The v3 packet sum and the two decode paths -/

/-- The v3 `Packet` sum (`v3/mod.rs` is not in the sources; the variants
and their payloads are those dispatched on in `v3/poll.rs`). -/
inductive Packet
  | connect (c : Connect)
  | connack (c : Connack)
  | publish (p : Publish)
  | puback (pid : Nat)
  | pubrec (pid : Nat)
  | pubrel (pid : Nat)
  | pubcomp (pid : Nat)
  | subscribe (s : Subscribe)
  | suback (s : Suback)
  | unsubscribe (u : Unsubscribe)
  | unsuback (pid : Nat)
  | pingreq
  | pingresp
  | disconnect
  deriving DecidableEq, Repr

/-- Body decoding for the slice path. Modelled from the spec (§6.2,
`v3/packet.rs` is not in the sources): the slice `Packet::decode` drives
the same per-type body decoders as `decode_stream` in `v3/poll.rs`, with
Pingreq, Pingresp and Disconnect materialized from the header alone. -/
def bodySlice (header : Header) : Dec Packet :=
  match header.typ with
  | .connect => do let c ← Connect.decode; pure (.connect c)
  | .connack => do let c ← Connack.decode; pure (.connack c)
  | .publish => do let p ← Publish.decode header; pure (.publish p)
  | .puback => do let pid ← readPid; pure (.puback pid)
  | .pubrec => do let pid ← readPid; pure (.pubrec pid)
  | .pubrel => do let pid ← readPid; pure (.pubrel pid)
  | .pubcomp => do let pid ← readPid; pure (.pubcomp pid)
  | .subscribe => do let s ← Subscribe.decode header; pure (.subscribe s)
  | .suback => do let s ← Suback.decode header; pure (.suback s)
  | .unsubscribe => do let u ← Unsubscribe.decode header; pure (.unsubscribe u)
  | .unsuback => do let pid ← readPid; pure (.unsuback pid)
  | .pingreq => pure .pingreq
  | .pingresp => pure .pingresp
  | .disconnect => pure .disconnect

/-- The whole-packet slice decoder: fixed header then body. -/
def decodeFull : Dec Packet := DecE.bind Header.decode bodySlice

/-- `Packet::decode(slice)`. Modelled from the spec (§6.2 and §7:
end-of-input at the slice API becomes `Ok(None)`), pinned by
`test_decode_half_connect` and `test_inner_length_too_long` in
`v3/tests/decoder.rs`. -/
def Packet.decode (s : List Nat) : Except Error (Option Packet) :=
  match decodeFull s with
  | .ok (p, _) => .ok (some p)
  | .error e => if e.isEof then .ok none else .error e

/-- `PollHeader::build_empty_packet` for v3 (`v3/poll.rs` lines
20-28). -/
def buildEmpty (header : Header) : Option Packet :=
  match header.typ with
  | .pingreq => some .pingreq
  | .pingresp => some .pingresp
  | .disconnect => some .disconnect
  | _ => none

/-- `PollHeader::decode_buffer` for v3 (`v3/poll.rs` lines 30-45): the
body decoder the streaming assembler runs over the completed body
buffer. All arms call the same decoders as the slice path except
Subscribe, which uses the buffer-driven loop. -/
def bodyStream (header : Header) : Dec Packet :=
  match header.typ with
  | .subscribe => do let s ← Subscribe.decodeBuf header; pure (.subscribe s)
  | _ => bodySlice header

/-! ## Streaming assembler

Modelled from the spec (§4.7, `common/poll.rs` is not in the sources):
the assembler accumulates the fixed header byte by byte, then exactly
`remaining_len` body bytes, then runs the type-specific body decoder
once over the completed buffer. End-of-input while the fixed header or
the body is incomplete is `NeedMore`; an end-of-input error raised by
the body decoder over the completed buffer means the inner lengths
overran the declared remaining length and surfaces as
`InvalidRemainingLength` (pinned by `test_inner_length_too_long`). -/

/-- Assembler state: still reading the fixed header (with the bytes
collected so far), or reading the body of a known header. -/
inductive PollSt
  | header (buf : List Nat)
  | body (hdr : Header) (buf : List Nat)
  deriving DecidableEq, Repr

/-- Result of feeding one chunk: a completed packet with the unconsumed
leftover of the chunk, a hungry state, or a decoding error. -/
inductive StepResult
  | ready (pkt : Packet) (leftover : List Nat)
  | needMore (st : PollSt)
  | failed (e : Error)
  deriving DecidableEq, Repr

/-- Body phase: accumulate until `remaining_len` bytes are available,
then decode the exact body buffer. -/
def bodyFeed (hdr : Header) (acc chunk : List Nat) : StepResult :=
  let bytes := acc ++ chunk
  if bytes.length < hdr.remainingLen then .needMore (.body hdr bytes)
  else
    match bodyStream hdr (bytes.take hdr.remainingLen) with
    | .ok (pkt, _) => .ready pkt (bytes.drop hdr.remainingLen)
    | .error e => .failed (if e.isEof then .invalidRemainingLength else e)

/-- Feed one chunk to the assembler. -/
def feed : PollSt → List Nat → StepResult
  | .header buf, chunk =>
    let bytes := buf ++ chunk
    match Header.decode bytes with
    | .error e => if e.isEof then .needMore (.header bytes) else .failed e
    | .ok (hdr, rest) =>
      match buildEmpty hdr with
      | some pkt => .ready pkt rest
      | none => bodyFeed hdr [] rest
  | .body hdr acc, chunk => bodyFeed hdr acc chunk

/-- The fresh assembler state (`GenericPollPacketState::default`). -/
def initPollSt : PollSt := .header []

/-- Feed a list of chunks in order; a packet completed before the last
chunk carries the unread chunks in its leftover. -/
def feedChunks (st : PollSt) : List (List Nat) → StepResult
  | [] => .needMore st
  | c :: cs =>
    match feed st c with
    | .ready pkt lo => .ready pkt (lo ++ cs.flatten)
    | .failed e => .failed e
    | .needMore st' => feedChunks st' cs

/-! ## v5 codec -/

/-- Big-endian 32-bit read (`read_u32`). -/
def readU32 : Dec Nat := do
  let hi ← readU16
  let lo ← readU16
  pure (hi * 65536 + lo)

/-- Big-endian 32-bit write; faithful for `v < 2^32`. -/
def writeU32 (v : Nat) : List Nat :=
  [v / 16777216, v / 65536 % 256, v / 256 % 256, v % 256]

namespace V5

/-- v5 packet types (codes 1 to 15). -/
inductive PacketType
  | connect
  | connack
  | publish
  | puback
  | pubrec
  | pubrel
  | pubcomp
  | subscribe
  | suback
  | unsubscribe
  | unsuback
  | pingreq
  | pingresp
  | disconnect
  | auth
  deriving DecidableEq, Repr

/-- The v5 error type (`v5/error.rs` is not in the sources; §7 of the
spec lists the v5-additional variants and the decoders in
`v5/publish.rs` construct `InvalidReasonCode(type, byte)`,
`InvalidPayloadFormat` and property errors). A common codec error is
wrapped, as the `From<Error>` conversion used by `?` does. -/
inductive ErrorV5
  | common (e : Error)
  | invalidReasonCode (typ : PacketType) (value : Nat)
  | invalidPayloadFormat
  | invalidPropertyId (typ : PacketType) (id : Nat)
  | duplicatedProperty (id : Nat)
  | protocolError
  deriving DecidableEq, Repr

/-- Decoders over the v5 error type. -/
abbrev DecV5 (α : Type) : Type := DecE ErrorV5 α

/-- Lift a common-error decoder into the v5 decoder monad
(the `From<Error> for ErrorV5` conversion applied by `?`). -/
def liftD {α : Type} (d : Dec α) : DecV5 α := fun s =>
  match d s with
  | .ok x => .ok x
  | .error e => .error (.common e)

/-- v5 fixed header. Modelled from the spec (§4.3, `v5/packet.rs` is not
in the sources): the decoders in `v5/publish.rs` consume its type, the
Publish flag bits and the remaining length. -/
structure Header where
  typ : PacketType
  dup : Bool
  qos : QoS
  retain : Bool
  remainingLen : Nat
  deriving DecidableEq, Repr

/-- Property list shared by the four ack packets: `PubackProperties`,
`PubrecProperties`, `PubrelProperties` and `PubcompProperties` in
`v5/publish.rs` all carry exactly a reason string and user
properties. -/
structure AckProperties where
  reason_string : Option (List Nat)
  user_properties : List (List Nat × List Nat)
  deriving DecidableEq, Repr

/-- `Default::default()` for the ack property lists. -/
def AckProperties.default : AckProperties := ⟨none, []⟩

/-- The property loop for the ack packets. Modelled from the spec (§4.5,
`v5/types.rs` with the `decode_properties!` macro is not in the
sources): run down the declared property length, dispatching on the id
byte; `ReasonString` (0x1F = 31) holds a UTF-8 string and may not
repeat, `UserProperty` (0x26 = 38) holds a string pair and may repeat;
any other id is `InvalidPropertyId(type, id)` and a repeated scalar is
`DuplicatedProperty(id)`. -/
def ackPropsLoop (typ : PacketType) (counter : Nat) (acc : AckProperties) :
    DecV5 AckProperties := fun s =>
  if counter = 0 then .ok (acc, s)
  else
    match s with
    | [] => .error (.common .unexpectedEof)
    | id :: s1 =>
      if id = 31 then
        match readString s1 with
        | .error e => .error (.common e)
        | .ok (str, s2) =>
          if acc.reason_string.isSome then .error (.duplicatedProperty 31)
          else if 3 + str.length ≤ counter then
            ackPropsLoop typ (counter - (3 + str.length))
              { acc with reason_string := some str } s2
          else .error .protocolError
      else if id = 38 then
        match readString s1 with
        | .error e => .error (.common e)
        | .ok (k, s2) =>
          match readString s2 with
          | .error e => .error (.common e)
          | .ok (v, s3) =>
            if 5 + k.length + v.length ≤ counter then
              ackPropsLoop typ (counter - (5 + k.length + v.length))
                { acc with user_properties := acc.user_properties ++ [(k, v)] } s3
            else .error .protocolError
      else .error (.invalidPropertyId typ id)
  termination_by counter
  decreasing_by all_goals omega

/-- Ack property-block decoding: a var-byte-int total length, then the
id-dispatch loop over exactly that many bytes. -/
def AckProperties.decode (typ : PacketType) : DecV5 AckProperties := fun s =>
  match decodeVarInt s with
  | .error e => .error (.common e)
  | .ok (len, s1) => ackPropsLoop typ len AckProperties.default s1

/-- Byte length of the ack property items (without the length prefix). -/
def AckProperties.bodyLen (p : AckProperties) : Nat :=
  (match p.reason_string with | some s => 3 + s.length | none => 0) +
  (p.user_properties.map (fun kv => 5 + kv.1.length + kv.2.length)).sum

/-- Ack property-block encoding: length prefix, then the reason string
if present, then the user properties. -/
def AckProperties.encode (p : AckProperties) : List Nat :=
  encodeVarInt p.bodyLen ++
  (match p.reason_string with | some s => 31 :: writeString s | none => []) ++
  (p.user_properties.map (fun kv => 38 :: (writeString kv.1 ++ writeString kv.2))).flatten

/-- `encode_len` of the ack property lists. -/
def AckProperties.encodeLen (p : AckProperties) : Nat :=
  varIntLen p.bodyLen + p.bodyLen

/-- Reason code for PUBACK (`v5/publish.rs` lines 345-376). -/
inductive PubackReasonCode
  | success
  | noMatchingSubscribers
  | unspecifiedError
  | implementationSpecificError
  | notAuthorized
  | topicNameInvalid
  | packetIdentifierInUse
  | quotaExceeded
  | payloadFormatInvalid
  deriving DecidableEq, Repr

def PubackReasonCode.toU8 : PubackReasonCode → Nat
  | .success => 0
  | .noMatchingSubscribers => 16
  | .unspecifiedError => 128
  | .implementationSpecificError => 131
  | .notAuthorized => 135
  | .topicNameInvalid => 144
  | .packetIdentifierInUse => 145
  | .quotaExceeded => 151
  | .payloadFormatInvalid => 153

/-- `PubackReasonCode::from_u8` (`v5/publish.rs` lines 360-376). -/
def PubackReasonCode.fromU8 (value : Nat) : Option PubackReasonCode :=
  if value = 0 then some .success
  else if value = 16 then some .noMatchingSubscribers
  else if value = 128 then some .unspecifiedError
  else if value = 131 then some .implementationSpecificError
  else if value = 135 then some .notAuthorized
  else if value = 144 then some .topicNameInvalid
  else if value = 145 then some .packetIdentifierInUse
  else if value = 151 then some .quotaExceeded
  else if value = 153 then some .payloadFormatInvalid
  else none

/-- Reason code for PUBREC (`v5/publish.rs` lines 501-532), the same
closed set as PUBACK. -/
inductive PubrecReasonCode
  | success
  | noMatchingSubscribers
  | unspecifiedError
  | implementationSpecificError
  | notAuthorized
  | topicNameInvalid
  | packetIdentifierInUse
  | quotaExceeded
  | payloadFormatInvalid
  deriving DecidableEq, Repr

def PubrecReasonCode.toU8 : PubrecReasonCode → Nat
  | .success => 0
  | .noMatchingSubscribers => 16
  | .unspecifiedError => 128
  | .implementationSpecificError => 131
  | .notAuthorized => 135
  | .topicNameInvalid => 144
  | .packetIdentifierInUse => 145
  | .quotaExceeded => 151
  | .payloadFormatInvalid => 153

/-- `PubrecReasonCode::from_u8` (`v5/publish.rs` lines 516-532). -/
def PubrecReasonCode.fromU8 (value : Nat) : Option PubrecReasonCode :=
  if value = 0 then some .success
  else if value = 16 then some .noMatchingSubscribers
  else if value = 128 then some .unspecifiedError
  else if value = 131 then some .implementationSpecificError
  else if value = 135 then some .notAuthorized
  else if value = 144 then some .topicNameInvalid
  else if value = 145 then some .packetIdentifierInUse
  else if value = 151 then some .quotaExceeded
  else if value = 153 then some .payloadFormatInvalid
  else none

/-- Reason code for PUBREL (`v5/publish.rs` lines 648-665). -/
inductive PubrelReasonCode
  | success
  | packetIdentifierNotFound
  deriving DecidableEq, Repr

def PubrelReasonCode.toU8 : PubrelReasonCode → Nat
  | .success => 0
  | .packetIdentifierNotFound => 146

/-- `PubrelReasonCode::from_u8` (`v5/publish.rs` lines 656-665). -/
def PubrelReasonCode.fromU8 (value : Nat) : Option PubrelReasonCode :=
  if value = 0 then some .success
  else if value = 146 then some .packetIdentifierNotFound
  else none

/-- Reason code for PUBCOMP (`v5/publish.rs` lines 781-798). -/
inductive PubcompReasonCode
  | success
  | packetIdentifierNotFound
  deriving DecidableEq, Repr

def PubcompReasonCode.toU8 : PubcompReasonCode → Nat
  | .success => 0
  | .packetIdentifierNotFound => 146

/-- `PubcompReasonCode::from_u8` (`v5/publish.rs` lines 789-798). -/
def PubcompReasonCode.fromU8 (value : Nat) : Option PubcompReasonCode :=
  if value = 0 then some .success
  else if value = 146 then some .packetIdentifierNotFound
  else none

/-- PUBACK body (`v5/publish.rs` lines 222-229). -/
structure Puback where
  pid : Nat
  reason_code : PubackReasonCode
  properties : AckProperties
  deriving DecidableEq, Repr

/-- `Puback::decode_async` (`v5/publish.rs` lines 244-268): Pid, then a
three-way split on the remaining length: 2 means reason `Success` and
default properties, 3 means a reason byte and default properties,
anything else reads a reason byte and a properties block; a reason byte
outside the closed set is `InvalidReasonCode(type, byte)`. -/
def Puback.decode (header : Header) : DecV5 Puback := do
  let pid ← liftD readPid
  if header.remainingLen = 2 then
    pure { pid, reason_code := .success, properties := .default }
  else if header.remainingLen = 3 then do
    let reason_byte ← liftD readU8
    match PubackReasonCode.fromU8 reason_byte with
    | none => DecE.fail (.invalidReasonCode header.typ reason_byte)
    | some reason_code => pure { pid, reason_code, properties := .default }
  else do
    let reason_byte ← liftD readU8
    match PubackReasonCode.fromU8 reason_byte with
    | none => DecE.fail (.invalidReasonCode header.typ reason_byte)
    | some reason_code => do
      let properties ← AckProperties.decode header.typ
      pure { pid, reason_code, properties }

/-- `impl Encodable for Puback`, `encode` (`v5/publish.rs` lines
271-283): the reason byte is omitted when the properties are default and
the reason is `Success`; the properties are omitted when default. -/
def Puback.encode (p : Puback) : List Nat :=
  writeU16 p.pid ++
  (if p.properties = AckProperties.default then
    (if p.reason_code ≠ .success then [p.reason_code.toU8] else [])
  else p.reason_code.toU8 :: p.properties.encode)

/-- `Puback::encode_len` (`v5/publish.rs` lines 285-295). -/
def Puback.encodeLen (p : Puback) : Nat :=
  if p.properties = AckProperties.default then
    if p.reason_code = .success then 2 else 3
  else 3 + p.properties.encodeLen

/-- PUBREC body (`v5/publish.rs` lines 378-385). -/
structure Pubrec where
  pid : Nat
  reason_code : PubrecReasonCode
  properties : AckProperties
  deriving DecidableEq, Repr

/-- `Pubrec::decode_async` (`v5/publish.rs` lines 400-424). -/
def Pubrec.decode (header : Header) : DecV5 Pubrec := do
  let pid ← liftD readPid
  if header.remainingLen = 2 then
    pure { pid, reason_code := .success, properties := .default }
  else if header.remainingLen = 3 then do
    let reason_byte ← liftD readU8
    match PubrecReasonCode.fromU8 reason_byte with
    | none => DecE.fail (.invalidReasonCode header.typ reason_byte)
    | some reason_code => pure { pid, reason_code, properties := .default }
  else do
    let reason_byte ← liftD readU8
    match PubrecReasonCode.fromU8 reason_byte with
    | none => DecE.fail (.invalidReasonCode header.typ reason_byte)
    | some reason_code => do
      let properties ← AckProperties.decode header.typ
      pure { pid, reason_code, properties }

/-- `impl Encodable for Pubrec`, `encode` (`v5/publish.rs` lines
427-439). -/
def Pubrec.encode (p : Pubrec) : List Nat :=
  writeU16 p.pid ++
  (if p.properties = AckProperties.default then
    (if p.reason_code ≠ .success then [p.reason_code.toU8] else [])
  else p.reason_code.toU8 :: p.properties.encode)

/-- `Pubrec::encode_len` (`v5/publish.rs` lines 441-451). -/
def Pubrec.encodeLen (p : Pubrec) : Nat :=
  if p.properties = AckProperties.default then
    if p.reason_code = .success then 2 else 3
  else 3 + p.properties.encodeLen

/-- PUBREL body (`v5/publish.rs` lines 534-541). -/
structure Pubrel where
  pid : Nat
  reason_code : PubrelReasonCode
  properties : AckProperties
  deriving DecidableEq, Repr

/-- `Pubrel::decode_async` (`v5/publish.rs` lines 556-580). -/
def Pubrel.decode (header : Header) : DecV5 Pubrel := do
  let pid ← liftD readPid
  if header.remainingLen = 2 then
    pure { pid, reason_code := .success, properties := .default }
  else if header.remainingLen = 3 then do
    let reason_byte ← liftD readU8
    match PubrelReasonCode.fromU8 reason_byte with
    | none => DecE.fail (.invalidReasonCode header.typ reason_byte)
    | some reason_code => pure { pid, reason_code, properties := .default }
  else do
    let reason_byte ← liftD readU8
    match PubrelReasonCode.fromU8 reason_byte with
    | none => DecE.fail (.invalidReasonCode header.typ reason_byte)
    | some reason_code => do
      let properties ← AckProperties.decode header.typ
      pure { pid, reason_code, properties }

/-- `impl Encodable for Pubrel`, `encode` (`v5/publish.rs` lines
583-595). -/
def Pubrel.encode (p : Pubrel) : List Nat :=
  writeU16 p.pid ++
  (if p.properties = AckProperties.default then
    (if p.reason_code ≠ .success then [p.reason_code.toU8] else [])
  else p.reason_code.toU8 :: p.properties.encode)

/-- `Pubrel::encode_len` (`v5/publish.rs` lines 597-607). -/
def Pubrel.encodeLen (p : Pubrel) : Nat :=
  if p.properties = AckProperties.default then
    if p.reason_code = .success then 2 else 3
  else 3 + p.properties.encodeLen

/-- PUBCOMP body (`v5/publish.rs` lines 667-674). -/
structure Pubcomp where
  pid : Nat
  reason_code : PubcompReasonCode
  properties : AckProperties
  deriving DecidableEq, Repr

/-- `Pubcomp::decode_async` (`v5/publish.rs` lines 689-713). -/
def Pubcomp.decode (header : Header) : DecV5 Pubcomp := do
  let pid ← liftD readPid
  if header.remainingLen = 2 then
    pure { pid, reason_code := .success, properties := .default }
  else if header.remainingLen = 3 then do
    let reason_byte ← liftD readU8
    match PubcompReasonCode.fromU8 reason_byte with
    | none => DecE.fail (.invalidReasonCode header.typ reason_byte)
    | some reason_code => pure { pid, reason_code, properties := .default }
  else do
    let reason_byte ← liftD readU8
    match PubcompReasonCode.fromU8 reason_byte with
    | none => DecE.fail (.invalidReasonCode header.typ reason_byte)
    | some reason_code => do
      let properties ← AckProperties.decode header.typ
      pure { pid, reason_code, properties }

/-- `impl Encodable for Pubcomp`, `encode` (`v5/publish.rs` lines
716-728). -/
def Pubcomp.encode (p : Pubcomp) : List Nat :=
  writeU16 p.pid ++
  (if p.properties = AckProperties.default then
    (if p.reason_code ≠ .success then [p.reason_code.toU8] else [])
  else p.reason_code.toU8 :: p.properties.encode)

/-- `Pubcomp::encode_len` (`v5/publish.rs` lines 730-740). -/
def Pubcomp.encodeLen (p : Pubcomp) : Nat :=
  if p.properties = AckProperties.default then
    if p.reason_code = .success then 2 else 3
  else 3 + p.properties.encodeLen

/-- Property list for PUBLISH (`v5/publish.rs` lines 138-150). -/
structure PublishProperties where
  payload_is_utf8 : Option Bool
  message_expiry_interval : Option Nat
  topic_alias : Option Nat
  response_topic : Option (List Nat)
  correlation_data : Option (List Nat)
  user_properties : List (List Nat × List Nat)
  subscription_id : Option Nat
  content_type : Option (List Nat)
  deriving DecidableEq, Repr

/-- `PublishProperties::default()`. -/
def PublishProperties.default : PublishProperties :=
  ⟨none, none, none, none, none, [], none, none⟩

/-- The property loop for PUBLISH. Modelled from the spec (§4.5, the
`decode_properties!` macro in `v5/types.rs` is not in the sources): the
ids listed in `PublishProperties::decode_async` are
`PayloadFormatIndicator` (1, a 0/1 byte), `MessageExpiryInterval` (2, a
u32), `ContentType` (3, a string), `ResponseTopic` (8, a string),
`CorrelationData` (9, binary), `SubscriptionIdentifier` (11, a nonzero
var-byte-int) and `TopicAlias` (35, a u16), plus the always-allowed
`UserProperty` (38); scalar repeats are `DuplicatedProperty(id)` and
other ids `InvalidPropertyId(type, id)`. -/
def publishPropsLoop (typ : PacketType) (counter : Nat) (acc : PublishProperties) :
    DecV5 PublishProperties := fun s =>
  if counter = 0 then .ok (acc, s)
  else
    match s with
    | [] => .error (.common .unexpectedEof)
    | id :: s1 =>
      if id = 1 then
        match s1 with
        | [] => .error (.common .unexpectedEof)
        | b :: s2 =>
          if acc.payload_is_utf8.isSome then .error (.duplicatedProperty 1)
          else if 2 ≤ counter then
            if b = 0 then
              publishPropsLoop typ (counter - 2) { acc with payload_is_utf8 := some false } s2
            else if b = 1 then
              publishPropsLoop typ (counter - 2) { acc with payload_is_utf8 := some true } s2
            else .error .protocolError
          else .error .protocolError
      else if id = 2 then
        match readU32 s1 with
        | .error e => .error (.common e)
        | .ok (v, s2) =>
          if acc.message_expiry_interval.isSome then .error (.duplicatedProperty 2)
          else if 5 ≤ counter then
            publishPropsLoop typ (counter - 5) { acc with message_expiry_interval := some v } s2
          else .error .protocolError
      else if id = 3 then
        match readString s1 with
        | .error e => .error (.common e)
        | .ok (str, s2) =>
          if acc.content_type.isSome then .error (.duplicatedProperty 3)
          else if 3 + str.length ≤ counter then
            publishPropsLoop typ (counter - (3 + str.length)) { acc with content_type := some str } s2
          else .error .protocolError
      else if id = 8 then
        match readString s1 with
        | .error e => .error (.common e)
        | .ok (str, s2) =>
          if acc.response_topic.isSome then .error (.duplicatedProperty 8)
          else if 3 + str.length ≤ counter then
            publishPropsLoop typ (counter - (3 + str.length)) { acc with response_topic := some str } s2
          else .error .protocolError
      else if id = 9 then
        match readBytes s1 with
        | .error e => .error (.common e)
        | .ok (d, s2) =>
          if acc.correlation_data.isSome then .error (.duplicatedProperty 9)
          else if 3 + d.length ≤ counter then
            publishPropsLoop typ (counter - (3 + d.length)) { acc with correlation_data := some d } s2
          else .error .protocolError
      else if id = 11 then
        match decodeVarInt s1 with
        | .error e => .error (.common e)
        | .ok (v, s2) =>
          if acc.subscription_id.isSome then .error (.duplicatedProperty 11)
          else if v = 0 then .error .protocolError
          else if 1 + varIntLen v ≤ counter then
            publishPropsLoop typ (counter - (1 + varIntLen v)) { acc with subscription_id := some v } s2
          else .error .protocolError
      else if id = 35 then
        match readU16 s1 with
        | .error e => .error (.common e)
        | .ok (v, s2) =>
          if acc.topic_alias.isSome then .error (.duplicatedProperty 35)
          else if 3 ≤ counter then
            publishPropsLoop typ (counter - 3) { acc with topic_alias := some v } s2
          else .error .protocolError
      else if id = 38 then
        match readString s1 with
        | .error e => .error (.common e)
        | .ok (k, s2) =>
          match readString s2 with
          | .error e => .error (.common e)
          | .ok (v, s3) =>
            if 5 + k.length + v.length ≤ counter then
              publishPropsLoop typ (counter - (5 + k.length + v.length))
                { acc with user_properties := acc.user_properties ++ [(k, v)] } s3
            else .error .protocolError
      else .error (.invalidPropertyId typ id)
  termination_by counter
  decreasing_by all_goals omega

/-- `PublishProperties::decode_async` (`v5/publish.rs` lines 169-187):
length prefix, then the id-dispatch loop. -/
def PublishProperties.decode (typ : PacketType) : DecV5 PublishProperties := fun s =>
  match decodeVarInt s with
  | .error e => .error (.common e)
  | .ok (len, s1) => publishPropsLoop typ len PublishProperties.default s1

/-- Byte length of the PUBLISH property items (without the length
prefix). -/
def PublishProperties.bodyLen (p : PublishProperties) : Nat :=
  (match p.payload_is_utf8 with | some _ => 2 | none => 0) +
  (match p.message_expiry_interval with | some _ => 5 | none => 0) +
  (match p.topic_alias with | some _ => 3 | none => 0) +
  (match p.response_topic with | some t => 3 + t.length | none => 0) +
  (match p.correlation_data with | some d => 3 + d.length | none => 0) +
  (match p.subscription_id with | some v => 1 + varIntLen v | none => 0) +
  (match p.content_type with | some c => 3 + c.length | none => 0) +
  (p.user_properties.map (fun kv => 5 + kv.1.length + kv.2.length)).sum

/-- `PublishProperties::encode_len` (`v5/publish.rs` lines 205-219). -/
def PublishProperties.encodeLen (p : PublishProperties) : Nat :=
  varIntLen p.bodyLen + p.bodyLen

/-- `impl Encodable for PublishProperties`, `encode` (`v5/publish.rs`
lines 190-204): length prefix, the listed properties in declaration
order, then the user properties. -/
def PublishProperties.encode (p : PublishProperties) : List Nat :=
  encodeVarInt p.bodyLen ++
  (match p.payload_is_utf8 with
   | some b => [1, if b then 1 else 0] | none => []) ++
  (match p.message_expiry_interval with
   | some v => 2 :: writeU32 v | none => []) ++
  (match p.topic_alias with
   | some v => 35 :: writeU16 v | none => []) ++
  (match p.response_topic with
   | some t => 8 :: writeString t | none => []) ++
  (match p.correlation_data with
   | some d => 9 :: writeBytes d | none => []) ++
  (match p.subscription_id with
   | some v => 11 :: encodeVarInt v | none => []) ++
  (match p.content_type with
   | some c => 3 :: writeString c | none => []) ++
  (p.user_properties.map (fun kv => 38 :: (writeString kv.1 ++ writeString kv.2))).flatten

/-- PUBLISH body (`v5/publish.rs` lines 21-30). -/
structure Publish where
  dup : Bool
  retain : Bool
  qos_pid : QosPid
  topic_name : List Nat
  payload : List Nat
  properties : PublishProperties
  deriving DecidableEq, Repr

/-- `Publish::decode_async` (`v5/publish.rs` lines 58-107): topic name,
Pid when the header QoS is 1 or 2, the properties block, then the
payload filling the rest of the declared remaining length, where a
nonempty payload under `PayloadFormatIndicator == 1` must be valid UTF-8
or the decode fails with `InvalidPayloadFormat`; the topic name is
validated when the packet value is assembled. -/
def Publish.decode (header : Header) : DecV5 Publish := do
  let topic_name ← liftD readString
  let rem1 ← liftD (DecE.ofExcept (checkedSub header.remainingLen (2 + topic_name.length)))
  let (qos_pid, rem2) ← (
    match header.qos with
    | .Level0 => pure (QosPid.Level0, rem1)
    | .Level1 => do
        let pid ← liftD readPid
        let r ← liftD (DecE.ofExcept (checkedSub rem1 2))
        pure (QosPid.Level1 pid, r)
    | .Level2 => do
        let pid ← liftD readPid
        let r ← liftD (DecE.ofExcept (checkedSub rem1 2))
        pure (QosPid.Level2 pid, r)
    : DecV5 (QosPid × Nat))
  let properties ← PublishProperties.decode header.typ
  let rem3 ← liftD (DecE.ofExcept (checkedSub rem2 properties.encodeLen))
  let payload ← (if 0 < rem3 then do
      let data ← liftD (readExact rem3)
      if properties.payload_is_utf8 = some true ∧ utf8Valid data = false then
        DecE.fail .invalidPayloadFormat
      else pure data
    else pure [] : DecV5 (List Nat))
  liftD (DecE.ofExcept (topicNameCheck topic_name))
  pure { dup := header.dup, retain := header.retain, qos_pid, topic_name,
         payload, properties }

end V5

/-! ## Inversion lemmas: decoding an encoding

Each primitive reader, run on the matching writer's output followed by
arbitrary trailing bytes, returns the written value and the trailing
bytes. -/

@[simp] theorem readU8_cons (b : Nat) (rest : List Nat) :
    readU8 (b :: rest) = .ok (b, rest) := rfl

theorem readU16_enc {v : Nat} (h : v < 65536) (rest : List Nat) :
    readU16 (writeU16 v ++ rest) = .ok (v, rest) := by
  simp only [writeU16, List.cons_append, List.nil_append, readU16, DecE.bind_def,
    DecE.bind, readU8_cons, DecE.pure_def, DecE.pure]
  have : v / 256 * 256 + v % 256 = v := by omega
  rw [this]

theorem readExact_enc {n : Nat} {a : List Nat} (h : a.length = n) (rest : List Nat) :
    readExact n (a ++ rest) = .ok (a, rest) := by
  subst h
  unfold readExact
  rw [if_pos (by simp)]
  rw [List.take_left, List.drop_left]

theorem readBytes_enc {s : List Nat} (h : s.length < 65536) (rest : List Nat) :
    readBytes (writeBytes s ++ rest) = .ok (s, rest) := by
  simp only [readBytes, writeBytes, DecE.bind_def, List.append_assoc]
  rw [DecE.bind_eval (readU16_enc h (s ++ rest))]
  exact readExact_enc rfl rest

theorem readString_enc {s : List Nat} (hu : utf8Valid s = true)
    (h : s.length < 65536) (rest : List Nat) :
    readString (writeString s ++ rest) = .ok (s, rest) := by
  simp only [readString, writeString, DecE.bind_def]
  rw [DecE.bind_eval (readBytes_enc h rest)]
  simp [hu, DecE.pure_def]

theorem readPid_enc {v : Nat} (h0 : v ≠ 0) (h : v < 65536) (rest : List Nat) :
    readPid (writeU16 v ++ rest) = .ok (v, rest) := by
  simp only [readPid, DecE.bind_def]
  rw [DecE.bind_eval (readU16_enc h rest)]
  simp [h0, DecE.pure_def]

theorem readU32_enc {v : Nat} (h : v < 4294967296) (rest : List Nat) :
    readU32 (writeU32 v ++ rest) = .ok (v, rest) := by
  simp only [writeU32, List.cons_append, List.nil_append, readU32, readU16,
    DecE.bind_def, DecE.bind, readU8_cons, DecE.pure_def, DecE.pure]
  have : (v / 16777216 * 256 + v / 65536 % 256) * 65536 +
      (v / 256 % 256 * 256 + v % 256) = v := by omega
  rw [this]

theorem decodeVarInt_enc {n : Nat} (h : n < 268435456) (rest : List Nat) :
    decodeVarInt (encodeVarInt n ++ rest) = .ok (n, rest) := by
  unfold encodeVarInt
  by_cases h1 : n < 128
  · rw [if_pos h1]
    simp only [List.cons_append, List.nil_append, decodeVarInt, DecE.bind_def,
      DecE.bind, readU8_cons]
    rw [if_pos h1]
    rfl
  · rw [if_neg h1]
    by_cases h2 : n < 16384
    · rw [if_pos h2]
      simp only [List.cons_append, List.nil_append, decodeVarInt, DecE.bind_def,
        DecE.bind, readU8_cons]
      rw [if_neg (by omega : ¬(n % 128 + 128 < 128))]
      simp only [DecE.bind, readU8_cons]
      rw [if_pos (by omega : n / 128 < 128)]
      simp only [DecE.pure_def, DecE.pure,
        show (n % 128 + 128) % 128 + n / 128 * 128 = n by omega]
    · rw [if_neg h2]
      by_cases h3 : n < 2097152
      · rw [if_pos h3]
        simp only [List.cons_append, List.nil_append, decodeVarInt, DecE.bind_def,
          DecE.bind, readU8_cons]
        rw [if_neg (by omega : ¬(n % 128 + 128 < 128))]
        simp only [DecE.bind, readU8_cons]
        rw [if_neg (by omega : ¬(n / 128 % 128 + 128 < 128))]
        simp only [DecE.bind, readU8_cons]
        rw [if_pos (by omega : n / 16384 < 128)]
        simp only [DecE.pure_def, DecE.pure,
          show (n % 128 + 128) % 128 + (n / 128 % 128 + 128) % 128 * 128 +
            n / 16384 * 16384 = n by omega]
      · rw [if_neg h3]
        simp only [List.cons_append, List.nil_append, decodeVarInt, DecE.bind_def,
          DecE.bind, readU8_cons]
        rw [if_neg (by omega : ¬(n % 128 + 128 < 128))]
        simp only [DecE.bind, readU8_cons]
        rw [if_neg (by omega : ¬(n / 128 % 128 + 128 < 128))]
        simp only [DecE.bind, readU8_cons]
        rw [if_neg (by omega : ¬(n / 16384 % 128 + 128 < 128))]
        simp only [DecE.bind, readU8_cons]
        rw [if_pos (by omega : n / 2097152 < 128)]
        simp only [DecE.pure_def, DecE.pure,
          show (n % 128 + 128) % 128 + (n / 128 % 128 + 128) % 128 * 128 +
            (n / 16384 % 128 + 128) % 128 * 16384 + n / 2097152 * 2097152 = n by omega]

theorem protocol_decode_enc (p : Protocol) (rest : List Nat) :
    Protocol.decode (Protocol.encode p ++ rest) = .ok (p, rest) := by
  cases p <;> rfl

/-! ## Small helper lemmas shared by the claim proofs -/

/-- Whether a fallible result is a success. -/
def isOkResult {ε α : Type} : Except ε α → Bool
  | .ok _ => true
  | .error _ => false

theorem readU16_cons (hi lo : Nat) (t : List Nat) :
    readU16 (hi :: lo :: t) = .ok (hi * 256 + lo, t) := rfl

theorem readPid_cons {hi lo : Nat} {t : List Nat} (h : hi * 256 + lo ≠ 0) :
    readPid (hi :: lo :: t) = .ok (hi * 256 + lo, t) := by
  simp only [readPid, DecE.bind_def]
  rw [DecE.bind_eval (readU16_cons hi lo t)]
  simp [h, DecE.pure_def]

theorem liftD_ok {α : Type} {d : Dec α} {s : List Nat} {a : α} {rest : List Nat}
    (h : d s = .ok (a, rest)) : V5.liftD d s = .ok (a, rest) := by
  simp [V5.liftD, h]

theorem liftD_err {α : Type} {d : Dec α} {s : List Nat} {e : Error}
    (h : d s = .error e) : V5.liftD d s = (.error (.common e) : Except V5.ErrorV5 (α × List Nat)) := by
  simp [V5.liftD, h]

theorem checkedSub_ok {a b : Nat} (h : b ≤ a) : checkedSub a b = .ok (a - b) := by
  simp [checkedSub, h]

theorem topicNameValid_utf8 {s : List Nat} (h : topicNameValid s = true) :
    utf8Valid s = true := by
  simp only [topicNameValid, Bool.and_eq_true] at h
  exact h.1.2

theorem topicNameCheck_ok {s : List Nat} (h : topicNameValid s = true) :
    topicNameCheck s = .ok () := by
  have he : s.isEmpty = false := by
    simp only [topicNameValid, Bool.and_eq_true, Bool.not_eq_eq_eq_not] at h
    exact h.1.1
  simp [topicNameCheck, he, h]

theorem topicFilterValid_utf8 {s : List Nat} (h : topicFilterValid s = true) :
    utf8Valid s = true := by
  simp only [topicFilterValid, Bool.and_eq_true] at h
  exact h.1.2

theorem topicFilterCheck_ok {s : List Nat} (h : topicFilterValid s = true) :
    topicFilterCheck s = .ok () := by
  have he : s.isEmpty = false := by
    simp only [topicFilterValid, Bool.and_eq_true, Bool.not_eq_eq_eq_not] at h
    exact h.1.1
  simp [topicFilterCheck, he, h]

theorem pubackFromU8_toU8 (rc : V5.PubackReasonCode) :
    V5.PubackReasonCode.fromU8 rc.toU8 = some rc := by
  cases rc <;> rfl

theorem pubrecFromU8_toU8 (rc : V5.PubrecReasonCode) :
    V5.PubrecReasonCode.fromU8 rc.toU8 = some rc := by
  cases rc <;> rfl

theorem pubrelFromU8_toU8 (rc : V5.PubrelReasonCode) :
    V5.PubrelReasonCode.fromU8 rc.toU8 = some rc := by
  cases rc <;> rfl

theorem pubcompFromU8_toU8 (rc : V5.PubcompReasonCode) :
    V5.PubcompReasonCode.fromU8 rc.toU8 = some rc := by
  cases rc <;> rfl

/-- A v5 fixed header of the given ack type, as the streaming dispatcher
hands it to the body decoder. -/
def pubackHeader (rl : Nat) : V5.Header := ⟨.puback, false, .Level0, false, rl⟩

def pubrecHeader (rl : Nat) : V5.Header := ⟨.pubrec, false, .Level0, false, rl⟩

def pubrelHeader (rl : Nat) : V5.Header := ⟨.pubrel, false, .Level0, false, rl⟩

def pubcompHeader (rl : Nat) : V5.Header := ⟨.pubcomp, false, .Level0, false, rl⟩

/-- A v3 Unsubscribe fixed header. -/
def unsubHeader (rl : Nat) : Header := ⟨.unsubscribe, false, .Level0, false, rl⟩

/-- The Unsubscribe filter loop over a single encoded filter exactly
filling the running length. -/
theorem unsubscribeTopics_single {f : List Nat} (hf : topicFilterValid f = true)
    (hl : f.length < 65536) (rest : List Nat) :
    unsubscribeTopics (2 + f.length) (writeString f ++ rest) = .ok ([f], rest) := by
  rw [unsubscribeTopics]
  rw [if_neg (show ¬(2 + f.length = 0) from by omega)]
  rw [DecE.bind_eval (readString_enc (topicFilterValid_utf8 hf) hl rest)]
  rw [DecE.bind_eval (show DecE.ofExcept (topicFilterCheck f) rest = .ok ((), rest)
    from by rw [topicFilterCheck_ok hf]; rfl)]
  rw [if_pos (le_refl (2 + f.length))]
  rw [show 2 + f.length - (2 + f.length) = 0 from by omega]
  rw [unsubscribeTopics]
  rw [if_pos (show (0 : Nat) = 0 from rfl)]
  rfl

/-! ## Consumption laws

A decoder is lawful when a successful run factors into an exactly
consumed part followed by the leftover, exact runs are stable under
appending trailing bytes, every strict prefix of an exactly consumed
input ends in end-of-input, and non-eof errors persist under appended
bytes.  All slice decoders of the codec are lawful; this is what makes
the slice API and the streaming assembler agree. -/

structure Lawful {α : Type} (d : Dec α) : Prop where
  consume : ∀ xs a rest, d xs = .ok (a, rest) →
    ∃ c, xs = c ++ rest ∧ d c = .ok (a, [])
  ext : ∀ c a, d c = .ok (a, []) → ∀ ys, d (c ++ ys) = .ok (a, ys)
  pre : ∀ c a, d c = .ok (a, []) → ∀ p, p <+: c → p.length < c.length →
    d p = .error .unexpectedEof
  errExt : ∀ xs e, d xs = .error e → e ≠ .unexpectedEof → ∀ ys,
    d (xs ++ ys) = .error e

theorem lawful_pure {α : Type} (a : α) : Lawful (DecE.pure a) := by
  constructor
  · intro xs b rest h
    simp only [DecE.pure, Except.ok.injEq, Prod.mk.injEq] at h
    exact ⟨[], by simp [h.2], by simp [DecE.pure, h.1]⟩
  · intro c b h ys
    simp only [DecE.pure, Except.ok.injEq, Prod.mk.injEq] at h ⊢
    exact ⟨h.1, by simp [← h.2]⟩
  · intro c b h p hp hlen
    simp only [DecE.pure, Except.ok.injEq, Prod.mk.injEq] at h
    rw [h.2] at hlen
    simp at hlen
  · intro xs e h
    simp [DecE.pure] at h

theorem lawful_fail {α : Type} (e : Error) : Lawful (DecE.fail e : Dec α) := by
  constructor
  · intro xs a rest h
    simp [DecE.fail] at h
  · intro c a h ys
    simp [DecE.fail] at h
  · intro c a h p hp hlen
    simp [DecE.fail] at h
  · intro xs e' h hne ys
    simp only [DecE.fail, Except.error.injEq] at h
    simp [DecE.fail, h]

theorem lawful_ofExcept {α : Type} (x : Except Error α) :
    Lawful (DecE.ofExcept x) := by
  cases x with
  | ok a => exact lawful_pure a
  | error e => exact lawful_fail e

theorem lawful_bind {α β : Type} {d : Dec α} {f : α → Dec β} (hd : Lawful d)
    (hf : ∀ a, Lawful (f a)) : Lawful (DecE.bind d f) := by
  constructor
  · intro xs b rest h
    simp only [DecE.bind] at h
    cases hds : d xs with
    | error e => rw [hds] at h; exact absurd h (by simp)
    | ok p =>
      obtain ⟨a, r1⟩ := p
      rw [hds] at h
      obtain ⟨c1, hc1, hrun1⟩ := hd.consume xs a r1 hds
      obtain ⟨c2, hc2, hrun2⟩ := (hf a).consume r1 b rest h
      refine ⟨c1 ++ c2, by rw [hc1, hc2, List.append_assoc], ?_⟩
      simp only [DecE.bind]
      rw [hd.ext c1 a hrun1 c2]
      exact hrun2
  · intro c b h ys
    simp only [DecE.bind] at h ⊢
    cases hds : d c with
    | error e => rw [hds] at h; exact absurd h (by simp)
    | ok p =>
      obtain ⟨a, r1⟩ := p
      rw [hds] at h
      obtain ⟨c1, hc1, hrun1⟩ := hd.consume c a r1 hds
      have hext : d (c ++ ys) = .ok (a, r1 ++ ys) := by
        rw [hc1, List.append_assoc]
        exact hd.ext c1 a hrun1 (r1 ++ ys)
      rw [hext]
      exact (hf a).ext r1 b h ys
  · intro c b h p hp hlen
    simp only [DecE.bind] at h ⊢
    cases hds : d c with
    | error e => rw [hds] at h; exact absurd h (by simp)
    | ok q =>
      obtain ⟨a, r1⟩ := q
      rw [hds] at h
      obtain ⟨c1, hc1, hrun1⟩ := hd.consume c a r1 hds
      have hc1c : c1 <+: c := by rw [hc1]; exact List.prefix_append c1 r1
      have hclen : c.length = c1.length + r1.length := by
        rw [hc1, List.length_append]
      rcases Nat.lt_trichotomy p.length c1.length with hl | hl | hl
      · have hpc1 : p <+: c1 := List.prefix_of_prefix_length_le hp hc1c (by omega)
        rw [hd.pre c1 a hrun1 p hpc1 hl]
      · have hpc1 : p <+: c1 := List.prefix_of_prefix_length_le hp hc1c (by omega)
        have hpe : p = c1 := List.IsPrefix.eq_of_length hpc1 hl
        rw [hpe, hrun1]
        exact (hf a).pre r1 b h [] List.nil_prefix (by simp; omega)
      · have hc1p : c1 <+: p := List.prefix_of_prefix_length_le hc1c hp (by omega)
        obtain ⟨p2, hp2⟩ := hc1p
        obtain ⟨t, ht⟩ := hp
        have hr1 : r1 = p2 ++ t := by
          have hx : c1 ++ r1 = c1 ++ (p2 ++ t) := by
            rw [← List.append_assoc, hp2, ht, ← hc1]
          exact List.append_cancel_left hx
        have hstep : d p = .ok (a, p2) := by
          rw [← hp2]
          exact hd.ext c1 a hrun1 p2
        rw [hstep]
        have hp2len : p2.length < r1.length := by
          have h1 : p.length = c1.length + p2.length := by
            rw [← hp2, List.length_append]
          omega
        exact (hf a).pre r1 b h p2 ⟨t, hr1.symm⟩ hp2len
  · intro xs e h hne ys
    simp only [DecE.bind] at h ⊢
    cases hds : d xs with
    | error e' =>
      rw [hds] at h
      have he : e' = e := by
        simpa using h
      rw [he] at hds
      rw [hd.errExt xs e hds hne ys]
    | ok p =>
      obtain ⟨a, r1⟩ := p
      rw [hds] at h
      obtain ⟨c1, hc1, hrun1⟩ := hd.consume xs a r1 hds
      have hext : d (xs ++ ys) = .ok (a, r1 ++ ys) := by
        rw [hc1, List.append_assoc]
        exact hd.ext c1 a hrun1 (r1 ++ ys)
      rw [hext]
      exact (hf a).errExt r1 e h hne ys

theorem lawful_ite {α : Type} (c : Prop) [Decidable c] {d1 d2 : Dec α}
    (h1 : Lawful d1) (h2 : Lawful d2) : Lawful (if c then d1 else d2) := by
  split
  · exact h1
  · exact h2

theorem lawful_readU8 : Lawful readU8 := by
  constructor
  · intro xs a rest h
    have hx := readU8_ok h
    refine ⟨[a], by simp [hx], rfl⟩
  · intro c a h ys
    have hx := readU8_ok h
    rw [hx]
    rfl
  · intro c a h p hp hlen
    have hx := readU8_ok h
    rw [hx] at hlen
    simp only [List.length_cons, List.length_nil] at hlen
    have : p = [] := List.length_eq_zero.mp (by omega)
    rw [this]
    rfl
  · intro xs e h hne ys
    cases xs with
    | nil =>
      simp only [readU8, Except.error.injEq] at h
      exact absurd h.symm hne
    | cons b t => simp [readU8] at h

theorem lawful_readExact (n : Nat) : Lawful (readExact n) := by
  constructor
  · intro xs a rest h
    obtain ⟨hlen, hsplit⟩ := readExact_ok h
    refine ⟨a, hsplit, ?_⟩
    subst hlen
    unfold readExact
    rw [if_pos (le_refl _)]
    rw [List.take_length, List.drop_length]
  · intro c a h ys
    obtain ⟨hlen, hsplit⟩ := readExact_ok h
    have hc : c = a := by simpa using hsplit
    rw [hc, ← hlen]
    exact readExact_enc rfl ys
  · intro c a h p hp hlen
    obtain ⟨hl, hsplit⟩ := readExact_ok h
    have hc : c = a := by simpa using hsplit
    unfold readExact
    rw [if_neg (by rw [hc] at hlen; omega)]
  · intro xs e h hne ys
    unfold readExact at h
    split at h
    · simp at h
    · simp only [Except.error.injEq] at h
      exact absurd h.symm hne

theorem lawful_readU16 : Lawful readU16 :=
  lawful_bind lawful_readU8 fun _ =>
    lawful_bind lawful_readU8 fun _ => lawful_pure _

theorem lawful_readBytes : Lawful readBytes :=
  lawful_bind lawful_readU16 fun n => lawful_readExact n

theorem lawful_readString : Lawful readString :=
  lawful_bind lawful_readBytes fun _ =>
    lawful_ite _ (lawful_pure _) (lawful_fail _)

theorem lawful_readPid : Lawful readPid :=
  lawful_bind lawful_readU16 fun _ =>
    lawful_ite _ (lawful_fail _) (lawful_pure _)

theorem lawful_decodeVarInt : Lawful decodeVarInt :=
  lawful_bind lawful_readU8 fun _ =>
    lawful_ite _ (lawful_pure _)
      (lawful_bind lawful_readU8 fun _ =>
        lawful_ite _ (lawful_pure _)
          (lawful_bind lawful_readU8 fun _ =>
            lawful_ite _ (lawful_pure _)
              (lawful_bind lawful_readU8 fun _ =>
                lawful_ite _ (lawful_pure _) (lawful_fail _))))

theorem lawful_protocolDecode : Lawful Protocol.decode :=
  lawful_bind lawful_readBytes fun _ =>
    lawful_bind lawful_readU8 fun _ =>
      lawful_ite _ (lawful_pure _)
        (lawful_ite _ (lawful_pure _)
          (lawful_ite _ (lawful_pure _) (lawful_fail _)))

theorem lawful_headerDecode : Lawful Header.decode :=
  lawful_bind lawful_readU8 fun _ =>
    lawful_bind lawful_decodeVarInt fun _ => lawful_ofExcept _

theorem lawful_connackDecode : Lawful Connack.decode :=
  lawful_bind lawful_readU8 fun _ =>
    lawful_bind (lawful_ite _ (lawful_pure _)
        (lawful_ite _ (lawful_pure _) (lawful_fail _))) fun _ =>
      lawful_bind lawful_readU8 fun _ =>
        lawful_bind (lawful_ofExcept _) fun _ => lawful_pure _

theorem lawful_connectWithProtocol (p : Protocol) :
    Lawful (Connect.decodeWithProtocol p) :=
  lawful_ite _ (lawful_fail _)
    (lawful_bind lawful_readU8 fun _ =>
      lawful_ite _ (lawful_fail _)
        (lawful_bind lawful_readU16 fun _ =>
          lawful_bind lawful_readString fun _ =>
            lawful_bind
              (lawful_ite _
                (lawful_bind lawful_readString fun _ =>
                  lawful_bind lawful_readBytes fun _ =>
                    lawful_bind (lawful_ofExcept _) fun _ =>
                      lawful_bind (lawful_ofExcept _) fun _ => lawful_pure _)
                (lawful_ite _ (lawful_fail _) (lawful_pure _)))
              fun _ =>
                lawful_bind
                  (lawful_ite _
                    (lawful_bind lawful_readString fun _ => lawful_pure _)
                    (lawful_pure _))
                  fun _ =>
                    lawful_bind
                      (lawful_ite _
                        (lawful_bind lawful_readBytes fun _ => lawful_pure _)
                        (lawful_pure _))
                      fun _ => lawful_pure _))

theorem lawful_connectDecode : Lawful Connect.decode :=
  lawful_bind lawful_protocolDecode fun p => lawful_connectWithProtocol p

theorem lawful_publishDecode (header : Header) : Lawful (Publish.decode header) := by
  obtain ⟨t, d, q, r, rl⟩ := header
  apply lawful_bind lawful_readString
  intro topic
  apply lawful_bind (lawful_ofExcept _)
  intro u
  apply lawful_bind (lawful_ofExcept _)
  intro rem1
  apply lawful_bind
  · cases q
    · exact lawful_pure _
    · exact lawful_bind lawful_readPid fun _ =>
        lawful_bind (lawful_ofExcept _) fun _ => lawful_pure _
    · exact lawful_bind lawful_readPid fun _ =>
        lawful_bind (lawful_ofExcept _) fun _ => lawful_pure _
  · intro pr
    obtain ⟨qp, rem2⟩ := pr
    exact lawful_bind (lawful_readExact _) fun _ => lawful_pure _

theorem lawful_subscribeTopics (rl : Nat) : Lawful (subscribeTopicsAsync rl) := by
  induction rl using Nat.strong_induction_on with
  | _ rl ih =>
    rw [subscribeTopicsAsync]
    split
    · exact lawful_pure _
    · apply lawful_bind lawful_readString
      intro filter
      apply lawful_bind (lawful_ofExcept _)
      intro u
      apply lawful_bind lawful_readU8
      intro qb
      apply lawful_bind (lawful_ofExcept _)
      intro q
      split
      · exact lawful_bind (ih _ (by omega)) fun _ => lawful_pure _
      · exact lawful_fail _

theorem lawful_subscribeDecode (header : Header) : Lawful (Subscribe.decode header) :=
  lawful_bind lawful_readPid fun _ =>
    lawful_bind (lawful_ofExcept _) fun rl =>
      lawful_ite _ (lawful_fail _)
        (lawful_bind (lawful_subscribeTopics rl) fun _ => lawful_pure _)

theorem lawful_subackTopics (rl : Nat) : Lawful (subackTopics rl) := by
  induction rl with
  | zero => exact lawful_pure _
  | succ n ih =>
    exact lawful_bind lawful_readU8 fun _ =>
      lawful_bind (lawful_ofExcept _) fun _ =>
        lawful_bind ih fun _ => lawful_pure _

theorem lawful_subackDecode (header : Header) : Lawful (Suback.decode header) :=
  lawful_bind lawful_readPid fun _ =>
    lawful_bind (lawful_ofExcept _) fun rl =>
      lawful_bind (lawful_subackTopics rl) fun _ => lawful_pure _

theorem lawful_unsubscribeTopics (rl : Nat) : Lawful (unsubscribeTopics rl) := by
  induction rl using Nat.strong_induction_on with
  | _ rl ih =>
    rw [unsubscribeTopics]
    split
    · exact lawful_pure _
    · apply lawful_bind lawful_readString
      intro filter
      apply lawful_bind (lawful_ofExcept _)
      intro u
      split
      · exact lawful_bind (ih _ (by omega)) fun _ => lawful_pure _
      · exact lawful_fail _

theorem lawful_unsubscribeDecode (header : Header) :
    Lawful (Unsubscribe.decode header) :=
  lawful_bind lawful_readPid fun _ =>
    lawful_bind (lawful_ofExcept _) fun rl =>
      lawful_ite _ (lawful_fail _)
        (lawful_bind (lawful_unsubscribeTopics rl) fun _ => lawful_pure _)

theorem lawful_bodySlice (header : Header) : Lawful (bodySlice header) := by
  obtain ⟨t, d, q, r, rl⟩ := header
  cases t <;>
    first
      | exact lawful_pure _
      | exact lawful_bind lawful_readPid fun _ => lawful_pure _
      | exact lawful_bind lawful_connectDecode fun _ => lawful_pure _
      | exact lawful_bind lawful_connackDecode fun _ => lawful_pure _
      | exact lawful_bind (lawful_publishDecode _) fun _ => lawful_pure _
      | exact lawful_bind (lawful_subscribeDecode _) fun _ => lawful_pure _
      | exact lawful_bind (lawful_subackDecode _) fun _ => lawful_pure _
      | exact lawful_bind (lawful_unsubscribeDecode _) fun _ => lawful_pure _

theorem lawful_decodeFull : Lawful decodeFull :=
  lawful_bind lawful_headerDecode fun hdr => lawful_bodySlice hdr

/-- A successful run stays successful under appended bytes, which land in
the leftover. -/
theorem Lawful.okExt {α : Type} {d : Dec α} (hd : Lawful d) {xs : List Nat}
    {a : α} {rest : List Nat} (h : d xs = .ok (a, rest)) (ys : List Nat) :
    d (xs ++ ys) = .ok (a, rest ++ ys) := by
  obtain ⟨c, hc, hrun⟩ := hd.consume xs a rest h
  rw [hc, List.append_assoc]
  exact hd.ext c a hrun (rest ++ ys)

/-- The only eof-flagged error is `UnexpectedEof`. -/
theorem isEof_eq_true {e : Error} (h : e.isEof = true) : e = .unexpectedEof := by
  cases e <;> first | rfl | simp [Error.isEof] at h

/-- Shape of a successful Pid read: two bytes consumed, nonzero value. -/
theorem readPid_ok {s : List Nat} {pid : Nat} {rest : List Nat}
    (h : readPid s = .ok (pid, rest)) : s.length = 2 + rest.length ∧ pid ≠ 0 := by
  cases hu : readU16 s with
  | error e =>
    simp only [readPid, DecE.bind_def, DecE.bind_eval_err hu] at h
    simp at h
  | ok p =>
    obtain ⟨v, s1⟩ := p
    simp only [readPid, DecE.bind_def, DecE.bind_eval hu] at h
    by_cases hv : v = 0
    · rw [if_pos hv] at h
      simp [DecE.fail] at h
    · rw [if_neg hv] at h
      simp only [DecE.pure_def, DecE.pure_apply, Except.ok.injEq,
        Prod.mk.injEq] at h
      obtain ⟨h1, h2⟩ := h
      obtain ⟨b0, b1, hs, -⟩ := readU16_ok hu
      subst h2
      constructor
      · rw [hs]
        simp only [List.length_cons]
        omega
      · rw [← h1]; exact hv

/-- The packets the assembler materializes from the header alone have a
trivial body decoder. -/
theorem buildEmpty_some {hdr : Header} {pkt : Packet}
    (h : buildEmpty hdr = some pkt) : bodySlice hdr = DecE.pure pkt := by
  obtain ⟨t, d, q, r, rl⟩ := hdr
  cases t <;> simp only [buildEmpty] at h <;>
    first
      | (injection h with h; rw [← h]; rfl)
      | simp at h

/-- The buffer-driven Subscribe entry loop agrees with the
remaining-length-driven async loop whenever the buffer holds exactly the
declared remaining length and the async loop consumes it all. -/
theorem subscribeBuf_of_async (rl : Nat) :
    ∀ (s : List Nat) (topics : List (List Nat × QoS)),
      s.length = rl → subscribeTopicsAsync rl s = .ok (topics, []) →
      subscribeTopicsBuf rl s = .ok topics := by
  induction rl using Nat.strong_induction_on with
  | _ rl ih =>
    intro s topics hlen h
    rw [subscribeTopicsAsync] at h
    by_cases hrl : rl = 0
    · rw [if_pos hrl] at h
      simp only [DecE.pure_apply, Except.ok.injEq, Prod.mk.injEq] at h
      subst hrl
      have hs : s = [] := List.length_eq_zero.mp hlen
      subst hs
      rw [← h.1]
      rw [subscribeTopicsBuf]
    · rw [if_neg hrl] at h
      cases s with
      | nil => simp only [List.length_nil] at hlen; omega
      | cons b t =>
        cases h1 : readString (b :: t) with
        | error e =>
          simp only [DecE.bind_eval_err h1] at h
          simp at h
        | ok p =>
          obtain ⟨filter, s1⟩ := p
          simp only [DecE.bind_eval h1] at h
          cases h2 : topicFilterCheck filter with
          | error e =>
            rw [h2] at h
            simp only [DecE.bind_eval_err (DecE.ofExcept_error e s1)] at h
            simp at h
          | ok u =>
            cases u
            rw [h2] at h
            simp only [DecE.bind_eval (DecE.ofExcept_ok () s1)] at h
            cases s1 with
            | nil =>
              simp only [DecE.bind_eval_err
                (show readU8 [] = .error .unexpectedEof from rfl)] at h
              simp at h
            | cons qb s2 =>
              simp only [DecE.bind_eval
                (show readU8 (qb :: s2) = .ok (qb, s2) from rfl)] at h
              cases h3 : QoS.fromU8 qb with
              | error e =>
                rw [h3] at h
                simp only [DecE.bind_eval_err (DecE.ofExcept_error e s2)] at h
                simp at h
              | ok q =>
                rw [h3] at h
                simp only [DecE.bind_eval (DecE.ofExcept_ok q s2)] at h
                by_cases hg : 3 + filter.length ≤ rl
                · rw [if_pos hg] at h
                  cases h4 : subscribeTopicsAsync (rl - (3 + filter.length)) s2 with
                  | error e =>
                    simp only [DecE.bind_eval_err h4] at h
                    simp at h
                  | ok pr =>
                    obtain ⟨rest, s3⟩ := pr
                    simp only [DecE.bind_eval h4, DecE.pure_apply,
                      Except.ok.injEq, Prod.mk.injEq] at h
                    obtain ⟨htop, hs3⟩ := h
                    subst hs3
                    subst htop
                    have hlen1 : (b :: t).length = 2 + filter.length + (qb :: s2).length :=
                      readString_ok h1
                    have hlen2 : s2.length = rl - (3 + filter.length) := by
                      simp only [List.length_cons] at hlen1 hlen ⊢
                      omega
                    have hbuf := ih (rl - (3 + filter.length)) (by omega) s2 rest hlen2 h4
                    rw [subscribeTopicsBuf]
                    simp only [h1, h2, h3, hbuf, if_pos hg]
                · rw [if_neg hg] at h
                  simp [DecE.fail] at h

/-- `Subscribe::decode` over the completed body buffer agrees with
`Subscribe::decode_async` when the buffer length matches the declared
remaining length. -/
theorem subscribeDecodeBuf_of_decode {hdr : Header} {s : List Nat}
    {sub : Subscribe} (hlen : s.length = hdr.remainingLen)
    (h : Subscribe.decode hdr s = .ok (sub, [])) :
    Subscribe.decodeBuf hdr s = .ok (sub, []) := by
  cases hp : readPid s with
  | error e =>
    simp only [Subscribe.decode, DecE.bind_def, DecE.bind_eval_err hp] at h
    simp at h
  | ok pr =>
    obtain ⟨pid, s1⟩ := pr
    obtain ⟨hslen, hpid⟩ := readPid_ok hp
    have h2le : 2 ≤ hdr.remainingLen := by omega
    have hcs : checkedSub hdr.remainingLen 2 = .ok (hdr.remainingLen - 2) :=
      checkedSub_ok h2le
    simp only [Subscribe.decode, DecE.bind_def, DecE.bind_eval hp, hcs,
      DecE.bind_eval (DecE.ofExcept_ok (hdr.remainingLen - 2) s1)] at h
    by_cases hz : hdr.remainingLen - 2 = 0
    · rw [if_pos hz] at h
      simp [DecE.fail] at h
    · rw [if_neg hz] at h
      cases ht : subscribeTopicsAsync (hdr.remainingLen - 2) s1 with
      | error e =>
        simp only [DecE.bind_eval_err ht] at h
        simp at h
      | ok tp =>
        obtain ⟨topics, s2⟩ := tp
        simp only [DecE.bind_eval ht, DecE.pure_def, DecE.pure_apply,
          Except.ok.injEq, Prod.mk.injEq] at h
        obtain ⟨hsub, hs2⟩ := h
        subst hs2
        have hs1len : s1.length = hdr.remainingLen - 2 := by omega
        have hbuf := subscribeBuf_of_async (hdr.remainingLen - 2) s1 topics hs1len ht
        cases s1 with
        | nil => simp only [List.length_nil] at hs1len; omega
        | cons b1 t1 =>
          simp only [Subscribe.decodeBuf, DecE.bind_eval hp, hcs,
            DecE.bind_eval (DecE.ofExcept_ok (hdr.remainingLen - 2) (b1 :: t1)),
            List.isEmpty_cons, Bool.false_eq_true, if_false, hbuf]
          rw [hsub]

/-- The streaming body decoder agrees with the slice body decoder on a
body buffer of exactly the declared remaining length. -/
theorem bodyStream_of_slice {hdr : Header} {s : List Nat} {pkt : Packet}
    (hlen : s.length = hdr.remainingLen)
    (h : bodySlice hdr s = .ok (pkt, [])) :
    ∃ r, bodyStream hdr s = .ok (pkt, r) := by
  obtain ⟨t, d, q, rt, rl⟩ := hdr
  cases t
  case subscribe =>
    cases hs : Subscribe.decode ⟨.subscribe, d, q, rt, rl⟩ s with
    | error e =>
      simp only [bodySlice, DecE.bind_def, DecE.bind_eval_err hs] at h
      simp at h
    | ok pr =>
      obtain ⟨sub, s2⟩ := pr
      simp only [bodySlice, DecE.bind_def, DecE.bind_eval hs, DecE.pure_def,
        DecE.pure_apply, Except.ok.injEq, Prod.mk.injEq] at h
      obtain ⟨hpkt, hs2⟩ := h
      subst hs2
      have hb := subscribeDecodeBuf_of_decode hlen hs
      refine ⟨[], ?_⟩
      simp only [bodyStream, DecE.bind_def, DecE.bind_eval hb, DecE.pure_def,
        DecE.pure_apply]
      rw [hpkt]
  all_goals exact ⟨[], by simp only [bodyStream]; exact h⟩

/-- A byte sequence is a valid encoding of a packet when the fixed header
parses, the declared remaining length matches the body exactly, and the
slice decoder consumes the whole sequence into that packet. -/
def ValidEncoding (bytes : List Nat) (pkt : Packet) : Prop :=
  ∃ hdr rest, Header.decode bytes = .ok (hdr, rest) ∧
    rest.length = hdr.remainingLen ∧ decodeFull bytes = .ok (pkt, [])

/-- Invariant of the reachable assembler states: a header state holds an
incomplete fixed header, a body state an incomplete body. -/
def WFSt : PollSt → Prop
  | .header buf => Header.decode buf = .error .unexpectedEof
  | .body hdr acc => acc.length < hdr.remainingLen

theorem wf_init : WFSt initPollSt := by
  show Header.decode [] = .error .unexpectedEof
  decide

/-- The body phase only looks at the concatenation of its buffer and the
chunk. -/
theorem bodyFeed_comb (hdr : Header) (acc c1 c2 : List Nat) :
    bodyFeed hdr acc (c1 ++ c2) = bodyFeed hdr (acc ++ c1) c2 := by
  simp only [bodyFeed, List.append_assoc]

/-- A hungry body step pins the new state and its shortfall. -/
theorem bodyFeed_needMore_inv {hdr : Header} {acc c : List Nat} {st' : PollSt}
    (h : bodyFeed hdr acc c = .needMore st') :
    st' = .body hdr (acc ++ c) ∧ (acc ++ c).length < hdr.remainingLen := by
  simp only [bodyFeed] at h
  split at h
  · injection h with h
    exact ⟨h.symm, by assumption⟩
  · split at h <;> simp at h

theorem bodyFeed_ready_append {hdr : Header} {acc c1 : List Nat} {pkt : Packet}
    {lo : List Nat} (h : bodyFeed hdr acc c1 = .ready pkt lo) (c2 : List Nat) :
    bodyFeed hdr acc (c1 ++ c2) = .ready pkt (lo ++ c2) := by
  simp only [bodyFeed] at h ⊢
  by_cases hlt : (acc ++ c1).length < hdr.remainingLen
  · rw [if_pos hlt] at h
    simp at h
  · rw [if_neg hlt] at h
    have hle : hdr.remainingLen ≤ (acc ++ c1).length := by omega
    rw [← List.append_assoc]
    rw [if_neg (by rw [List.length_append]; simp only [List.length_append] at hlt; omega)]
    rw [List.take_append_of_le_length hle, List.drop_append_of_le_length hle]
    cases hds : bodyStream hdr ((acc ++ c1).take hdr.remainingLen) with
    | ok pr =>
      obtain ⟨pkt', r⟩ := pr
      simp only [hds] at h ⊢
      injection h with h1 h2
      rw [h1, h2]
    | error e =>
      simp only [hds] at h
      simp at h

theorem bodyFeed_failed_append {hdr : Header} {acc c1 : List Nat} {e0 : Error}
    (h : bodyFeed hdr acc c1 = .failed e0) (c2 : List Nat) :
    bodyFeed hdr acc (c1 ++ c2) = .failed e0 := by
  simp only [bodyFeed] at h ⊢
  by_cases hlt : (acc ++ c1).length < hdr.remainingLen
  · rw [if_pos hlt] at h
    simp at h
  · rw [if_neg hlt] at h
    have hle : hdr.remainingLen ≤ (acc ++ c1).length := by omega
    rw [← List.append_assoc]
    rw [if_neg (by rw [List.length_append]; simp only [List.length_append] at hlt; omega)]
    rw [List.take_append_of_le_length hle]
    cases hds : bodyStream hdr ((acc ++ c1).take hdr.remainingLen) with
    | ok pr =>
      obtain ⟨pkt', r⟩ := pr
      simp only [hds] at h
      simp at h
    | error e =>
      simp only [hds] at h ⊢
      exact h

/-- The header phase only looks at the concatenation of its buffer and
the chunk. -/
theorem feed_header_comb (buf c1 c2 : List Nat) :
    feed (.header buf) (c1 ++ c2) = feed (.header (buf ++ c1)) c2 := by
  simp only [feed, List.append_assoc]

/-- A well-formed state is still hungry on the empty chunk. -/
theorem feed_nil {st : PollSt} (hwf : WFSt st) : feed st [] = .needMore st := by
  cases st with
  | header buf =>
    have hh : Header.decode buf = .error .unexpectedEof := hwf
    simp only [feed, List.append_nil, hh]
    rfl
  | body hdr acc =>
    have hlt : acc.length < hdr.remainingLen := hwf
    simp only [feed, bodyFeed, List.append_nil]
    rw [if_pos hlt]

/-- Any hungry state the assembler reaches satisfies the invariant. -/
theorem feed_needMore_wf {st : PollSt} {c : List Nat} {st' : PollSt}
    (h : feed st c = .needMore st') : WFSt st' := by
  cases st with
  | body hdr acc =>
    simp only [feed] at h
    obtain ⟨hst, hlt⟩ := bodyFeed_needMore_inv h
    subst hst
    exact hlt
  | header buf =>
    simp only [feed] at h
    cases hhd : Header.decode (buf ++ c) with
    | error e =>
      simp only [hhd] at h
      cases he : e.isEof with
      | true =>
        rw [if_pos he] at h
        injection h with h
        subst h
        show Header.decode (buf ++ c) = .error .unexpectedEof
        rw [← isEof_eq_true he]
        exact hhd
      | false =>
        rw [if_neg (by simp [he])] at h
        simp at h
    | ok pr =>
      obtain ⟨hdr, rest⟩ := pr
      simp only [hhd] at h
      cases hbe : buildEmpty hdr with
      | some pkt =>
        simp only [hbe] at h
        simp at h
      | none =>
        simp only [hbe] at h
        obtain ⟨hst, hlt⟩ := bodyFeed_needMore_inv h
        subst hst
        exact hlt

/-- A hungry step absorbs the appended bytes into the next step. -/
theorem feed_needMore_append {st : PollSt} {c1 : List Nat} {st' : PollSt}
    (h : feed st c1 = .needMore st') (c2 : List Nat) :
    feed st (c1 ++ c2) = feed st' c2 := by
  cases st with
  | body hdr acc =>
    simp only [feed] at h
    obtain ⟨hst, hlt⟩ := bodyFeed_needMore_inv h
    subst hst
    simp only [feed]
    exact bodyFeed_comb hdr acc c1 c2
  | header buf =>
    rw [feed_header_comb buf c1 c2]
    simp only [feed] at h
    cases hhd : Header.decode (buf ++ c1) with
    | error e =>
      simp only [hhd] at h
      cases he : e.isEof with
      | true =>
        rw [if_pos he] at h
        injection h with h
        subst h
        rfl
      | false =>
        rw [if_neg (by simp [he])] at h
        simp at h
    | ok pr =>
      obtain ⟨hdr, rest⟩ := pr
      simp only [hhd] at h
      cases hbe : buildEmpty hdr with
      | some pkt =>
        simp only [hbe] at h
        simp at h
      | none =>
        simp only [hbe] at h
        obtain ⟨hst, hlt⟩ := bodyFeed_needMore_inv h
        subst hst
        simp only [feed, lawful_headerDecode.okExt hhd c2, hbe,
          List.nil_append]
        exact bodyFeed_comb hdr [] rest c2

/-- A completed packet stays completed under appended bytes, which land
in the leftover. -/
theorem feed_ready_append {st : PollSt} {c1 : List Nat} {pkt : Packet}
    {lo : List Nat} (h : feed st c1 = .ready pkt lo) (c2 : List Nat) :
    feed st (c1 ++ c2) = .ready pkt (lo ++ c2) := by
  cases st with
  | body hdr acc =>
    simp only [feed] at h ⊢
    exact bodyFeed_ready_append h c2
  | header buf =>
    rw [feed_header_comb buf c1 c2]
    simp only [feed] at h ⊢
    cases hhd : Header.decode (buf ++ c1) with
    | error e =>
      simp only [hhd] at h
      cases he : e.isEof with
      | true =>
        rw [if_pos he] at h
        simp at h
      | false =>
        rw [if_neg (by simp [he])] at h
        simp at h
    | ok pr =>
      obtain ⟨hdr, rest⟩ := pr
      simp only [hhd] at h
      simp only [lawful_headerDecode.okExt hhd c2]
      cases hbe : buildEmpty hdr with
      | some pkt' =>
        simp only [hbe] at h ⊢
        injection h with h1 h2
        rw [h1, h2]
      | none =>
        simp only [hbe] at h ⊢
        exact bodyFeed_ready_append h c2

/-- A failed step stays failed under appended bytes. -/
theorem feed_failed_append {st : PollSt} {c1 : List Nat} {e0 : Error}
    (h : feed st c1 = .failed e0) (c2 : List Nat) :
    feed st (c1 ++ c2) = .failed e0 := by
  cases st with
  | body hdr acc =>
    simp only [feed] at h ⊢
    exact bodyFeed_failed_append h c2
  | header buf =>
    rw [feed_header_comb buf c1 c2]
    simp only [feed] at h ⊢
    cases hhd : Header.decode (buf ++ c1) with
    | error e =>
      simp only [hhd] at h
      cases he : e.isEof with
      | true =>
        rw [if_pos he] at h
        simp at h
      | false =>
        rw [if_neg (by simp [he])] at h
        injection h with h
        subst h
        have hne : e ≠ .unexpectedEof := by
          intro hx
          subst hx
          simp [Error.isEof] at he
        simp only [lawful_headerDecode.errExt (buf ++ c1) e hhd hne c2]
        rw [if_neg (by simp [he])]
    | ok pr =>
      obtain ⟨hdr, rest⟩ := pr
      simp only [hhd] at h
      simp only [lawful_headerDecode.okExt hhd c2]
      cases hbe : buildEmpty hdr with
      | some pkt' =>
        simp only [hbe] at h
        simp at h
      | none =>
        simp only [hbe] at h ⊢
        exact bodyFeed_failed_append h c2

/-- Feeding a chunk list from a well-formed state is feeding the
concatenation in one chunk. -/
theorem feedChunks_flatten (cs : List (List Nat)) : ∀ st : PollSt, WFSt st →
    feedChunks st cs = feed st cs.flatten := by
  induction cs with
  | nil =>
    intro st hwf
    simp only [feedChunks, List.flatten_nil]
    exact (feed_nil hwf).symm
  | cons c cs ih =>
    intro st hwf
    simp only [feedChunks, List.flatten_cons]
    cases hf : feed st c with
    | ready pkt lo =>
      simp only [hf]
      exact (feed_ready_append hf cs.flatten).symm
    | failed e =>
      simp only [hf]
      exact (feed_failed_append hf cs.flatten).symm
    | needMore st' =>
      simp only [hf]
      rw [ih st' (feed_needMore_wf hf)]
      exact (feed_needMore_append hf cs.flatten).symm

/-- One feed of a complete valid encoding from the fresh state delivers
the packet with nothing left over. -/
theorem feed_init_of_valid {bytes : List Nat} {pkt : Packet}
    (h : ValidEncoding bytes pkt) : feed initPollSt bytes = .ready pkt [] := by
  obtain ⟨hdr, rest, hh, hlen, hfull⟩ := h
  have hbody : bodySlice hdr rest = .ok (pkt, []) := by
    unfold decodeFull at hfull
    rw [DecE.bind_eval hh] at hfull
    exact hfull
  simp only [initPollSt, feed, List.nil_append, hh]
  cases hbe : buildEmpty hdr with
  | some pkt' =>
    have hps := buildEmpty_some hbe
    rw [hps] at hbody
    simp only [DecE.pure_apply, Except.ok.injEq, Prod.mk.injEq] at hbody
    obtain ⟨hp1, hp2⟩ := hbody
    simp only [hbe]
    rw [hp1, hp2]
  | none =>
    simp only [hbe]
    obtain ⟨r, hstream⟩ := bodyStream_of_slice hlen hbody
    simp only [bodyFeed, List.nil_append]
    rw [if_neg (by omega)]
    rw [show rest.take hdr.remainingLen = rest from by rw [← hlen]; simp]
    simp only [hstream]
    rw [show rest.drop hdr.remainingLen = [] from by rw [← hlen]; simp]

/-! ## Claim theorems -/

/-- C5: for every possible first byte (all 256 values), `Header::decode`
returns `InvalidHeader` exactly when the packet-type nibble is reserved
(0 or 15) or the flags nibble differs from the required pattern (`0010`
for Pubrel, Subscribe and Unsubscribe, `0000` for the other non-Publish
types), returns `InvalidQos(3)` exactly when the type is Publish and the
QoS bits equal 3, and decodes successfully on every remaining first
byte. -/
theorem header_decode_firstbyte_classification :
    ∀ n : Fin 256,
      (Header.decode [n.val, 0] = .error .invalidHeader ↔
        (n.val / 16 = 0 ∨ n.val / 16 = 15 ∨
         ((n.val / 16 = 6 ∨ n.val / 16 = 8 ∨ n.val / 16 = 10) ∧ n.val % 16 ≠ 2) ∨
         ((n.val / 16 = 1 ∨ n.val / 16 = 2 ∨ n.val / 16 = 4 ∨ n.val / 16 = 5 ∨
           n.val / 16 = 7 ∨ n.val / 16 = 9 ∨ n.val / 16 = 11 ∨ n.val / 16 = 12 ∨
           n.val / 16 = 13 ∨ n.val / 16 = 14) ∧ n.val % 16 ≠ 0))) ∧
      (Header.decode [n.val, 0] = .error (.invalidQos 3) ↔
        (n.val / 16 = 3 ∧ n.val % 16 / 2 % 4 = 3)) ∧
      (¬(n.val / 16 = 0 ∨ n.val / 16 = 15 ∨
         ((n.val / 16 = 6 ∨ n.val / 16 = 8 ∨ n.val / 16 = 10) ∧ n.val % 16 ≠ 2) ∨
         ((n.val / 16 = 1 ∨ n.val / 16 = 2 ∨ n.val / 16 = 4 ∨ n.val / 16 = 5 ∨
           n.val / 16 = 7 ∨ n.val / 16 = 9 ∨ n.val / 16 = 11 ∨ n.val / 16 = 12 ∨
           n.val / 16 = 13 ∨ n.val / 16 = 14) ∧ n.val % 16 ≠ 0)) →
       ¬(n.val / 16 = 3 ∧ n.val % 16 / 2 % 4 = 3) →
       isOkResult (Header.decode [n.val, 0]) = true) := by
  decide

/-- C9: the v3 Connect decoder accepts only V310 and V311: with
protocol V50 it fails with `UnexpectedProtocol(V50)` on every input
buffer, before reading any further bytes, both at
`decode_buffer_with_protocol` and through `Connect::decode` on wire
bytes whose protocol field is the valid pair `("MQTT", 5)`; the same
connect body decodes under the pairs of V310 and V311. -/
theorem connect_rejects_v50 :
    (∀ s : List Nat, Connect.decodeWithProtocol .V50 s =
      .error (.unexpectedProtocol .V50)) ∧
    (∀ rest : List Nat, Connect.decode ([0, 4, 77, 81, 84, 84, 5] ++ rest) =
      .error (.unexpectedProtocol .V50)) ∧
    isOkResult (Connect.decode ([0, 4, 77, 81, 84, 84, 4] ++
      [0, 0, 10, 0, 1, 97])) = true ∧
    isOkResult (Connect.decode ([0, 6, 77, 81, 73, 115, 100, 112, 3] ++
      [0, 0, 10, 0, 1, 97])) = true := by
  refine ⟨fun s => rfl, fun rest => ?_, rfl, rfl⟩
  have : ([0, 4, 77, 81, 84, 84, 5] : List Nat) ++ rest =
      Protocol.encode .V50 ++ rest := rfl
  rw [this]
  simp only [Connect.decode, DecE.bind_def]
  rw [DecE.bind_eval (protocol_decode_enc .V50 rest)]
  rfl

/-- C10: a v3 Unsubscribe body holding only the packet identifier
(`remaining_len == 2`) fails with `EmptySubscription`, also through the
whole-packet slice decoder; an Unsubscribe with one topic filter decodes
successfully. -/
theorem unsubscribe_empty_subscription :
    (∀ hi lo : Nat, ∀ extra : List Nat, hi * 256 + lo ≠ 0 →
      Unsubscribe.decode (unsubHeader 2) (hi :: lo :: extra) =
        .error .emptySubscription) ∧
    Packet.decode [162, 2, 0, 10] = .error .emptySubscription ∧
    (∀ hi lo : Nat, ∀ f : List Nat, hi * 256 + lo ≠ 0 →
      topicFilterValid f = true → f.length < 65536 →
      Unsubscribe.decode (unsubHeader (4 + f.length)) (hi :: lo :: writeString f) =
        .ok (⟨hi * 256 + lo, [f]⟩, [])) := by
  refine ⟨fun hi lo extra h0 => ?_, by decide, fun hi lo f h0 hf hl => ?_⟩
  · simp only [Unsubscribe.decode, DecE.bind_def, unsubHeader]
    rw [DecE.bind_eval (readPid_cons h0)]
    rw [DecE.bind_eval (show DecE.ofExcept (checkedSub 2 2) extra = .ok (0, extra) by
      rw [checkedSub_ok (by omega)]; rfl)]
    rfl
  · simp only [Unsubscribe.decode, DecE.bind_def, unsubHeader]
    have hws : (hi :: lo :: writeString f) = hi :: lo :: (writeString f ++ []) := by
      simp
    rw [hws, DecE.bind_eval (readPid_cons h0)]
    have hcs : DecE.ofExcept (checkedSub (4 + f.length) 2) (writeString f ++ []) =
        .ok (2 + f.length, writeString f ++ []) := by
      rw [checkedSub_ok (by omega), show 4 + f.length - 2 = 2 + f.length from by omega]
      rfl
    rw [DecE.bind_eval hcs]
    rw [if_neg (show ¬(2 + f.length = 0) from by omega)]
    rw [DecE.bind_eval (unsubscribeTopics_single hf hl [])]
    rfl

/-- Witness for C10 at pid 10 and the single filter `a`. -/
theorem unsubscribe_empty_subscription_witness :
    ((0 : Nat) * 256 + 10 ≠ 0) ∧ topicFilterValid [97] = true ∧
    ([97] : List Nat).length < 65536 ∧
    Unsubscribe.decode (unsubHeader 2) [0, 10] = .error .emptySubscription ∧
    Unsubscribe.decode (unsubHeader (4 + ([97] : List Nat).length))
      (0 :: 10 :: writeString [97]) = .ok (⟨0 * 256 + 10, [[97]]⟩, []) :=
  ⟨by decide, by decide, by decide,
   unsubscribe_empty_subscription.1 0 10 [] (by decide),
   unsubscribe_empty_subscription.2.2 0 10 [97] (by decide) (by decide) (by decide)⟩

/-- C7: the accepted reason-code bytes of each v5 ack packet type form
exactly that type's closed set (`{0x00, 0x10, 0x80, 0x83, 0x87, 0x90,
0x91, 0x97, 0x99}` for Puback and Pubrec, `{0x00, 0x92}` for Pubrel and
Pubcomp), and decoding a byte outside the set fails with
`InvalidReasonCode` carrying the packet type and the offending byte. -/
theorem ack_reason_code_closed_sets :
    (∀ b : Nat, (V5.PubackReasonCode.fromU8 b).isSome = true ↔
      b ∈ [0, 16, 128, 131, 135, 144, 145, 151, 153]) ∧
    (∀ b : Nat, (V5.PubrecReasonCode.fromU8 b).isSome = true ↔
      b ∈ [0, 16, 128, 131, 135, 144, 145, 151, 153]) ∧
    (∀ b : Nat, (V5.PubrelReasonCode.fromU8 b).isSome = true ↔ b ∈ [0, 146]) ∧
    (∀ b : Nat, (V5.PubcompReasonCode.fromU8 b).isSome = true ↔ b ∈ [0, 146]) ∧
    (∀ rl hi lo b : Nat, ∀ rest : List Nat, rl ≠ 2 → hi * 256 + lo ≠ 0 →
      V5.PubackReasonCode.fromU8 b = none →
      V5.Puback.decode (pubackHeader rl) (hi :: lo :: b :: rest) =
        .error (.invalidReasonCode .puback b)) ∧
    (∀ rl hi lo b : Nat, ∀ rest : List Nat, rl ≠ 2 → hi * 256 + lo ≠ 0 →
      V5.PubrecReasonCode.fromU8 b = none →
      V5.Pubrec.decode (pubrecHeader rl) (hi :: lo :: b :: rest) =
        .error (.invalidReasonCode .pubrec b)) ∧
    (∀ rl hi lo b : Nat, ∀ rest : List Nat, rl ≠ 2 → hi * 256 + lo ≠ 0 →
      V5.PubrelReasonCode.fromU8 b = none →
      V5.Pubrel.decode (pubrelHeader rl) (hi :: lo :: b :: rest) =
        .error (.invalidReasonCode .pubrel b)) ∧
    (∀ rl hi lo b : Nat, ∀ rest : List Nat, rl ≠ 2 → hi * 256 + lo ≠ 0 →
      V5.PubcompReasonCode.fromU8 b = none →
      V5.Pubcomp.decode (pubcompHeader rl) (hi :: lo :: b :: rest) =
        .error (.invalidReasonCode .pubcomp b)) := by
  refine ⟨fun b => ?_, fun b => ?_, fun b => ?_, fun b => ?_,
    fun rl hi lo b rest h2 h0 hb => ?_, fun rl hi lo b rest h2 h0 hb => ?_,
    fun rl hi lo b rest h2 h0 hb => ?_, fun rl hi lo b rest h2 h0 hb => ?_⟩
  · simp only [V5.PubackReasonCode.fromU8]
    split_ifs <;> simp_all
  · simp only [V5.PubrecReasonCode.fromU8]
    split_ifs <;> simp_all
  · simp only [V5.PubrelReasonCode.fromU8]
    split_ifs <;> simp_all
  · simp only [V5.PubcompReasonCode.fromU8]
    split_ifs <;> simp_all
  · simp only [V5.Puback.decode, DecE.bind_def, pubackHeader]
    rw [DecE.bind_eval (liftD_ok (readPid_cons h0))]
    rw [if_neg h2]
    by_cases h3 : rl = 3
    · rw [if_pos h3]
      rw [DecE.bind_eval (liftD_ok (readU8_cons b rest))]
      rw [hb]
      rfl
    · rw [if_neg h3]
      rw [DecE.bind_eval (liftD_ok (readU8_cons b rest))]
      rw [hb]
      rfl
  · simp only [V5.Pubrec.decode, DecE.bind_def, pubrecHeader]
    rw [DecE.bind_eval (liftD_ok (readPid_cons h0))]
    rw [if_neg h2]
    by_cases h3 : rl = 3
    · rw [if_pos h3]
      rw [DecE.bind_eval (liftD_ok (readU8_cons b rest))]
      rw [hb]
      rfl
    · rw [if_neg h3]
      rw [DecE.bind_eval (liftD_ok (readU8_cons b rest))]
      rw [hb]
      rfl
  · simp only [V5.Pubrel.decode, DecE.bind_def, pubrelHeader]
    rw [DecE.bind_eval (liftD_ok (readPid_cons h0))]
    rw [if_neg h2]
    by_cases h3 : rl = 3
    · rw [if_pos h3]
      rw [DecE.bind_eval (liftD_ok (readU8_cons b rest))]
      rw [hb]
      rfl
    · rw [if_neg h3]
      rw [DecE.bind_eval (liftD_ok (readU8_cons b rest))]
      rw [hb]
      rfl
  · simp only [V5.Pubcomp.decode, DecE.bind_def, pubcompHeader]
    rw [DecE.bind_eval (liftD_ok (readPid_cons h0))]
    rw [if_neg h2]
    by_cases h3 : rl = 3
    · rw [if_pos h3]
      rw [DecE.bind_eval (liftD_ok (readU8_cons b rest))]
      rw [hb]
      rfl
    · rw [if_neg h3]
      rw [DecE.bind_eval (liftD_ok (readU8_cons b rest))]
      rw [hb]
      rfl

/-- Counterexample to C4 as stated: the connect-flags byte 34 (`0x22`,
will flag clear, will-retain bit set, clean-session set) does not fail
with `InvalidConnectFlags`; the packet decodes successfully with no last
will.  Only the will-qos bits are checked when the will flag is
clear. -/
theorem connect_will_retain_not_rejected :
    ((34 : Nat) / 4 % 2 = 0) ∧ ((34 : Nat) / 32 % 2 ≠ 0) ∧
    Connect.decode [0, 4, 77, 81, 84, 84, 4, 34, 0, 10, 0, 1, 97] =
      .ok (⟨.V311, true, 10, [97], none, none, none⟩, []) := by
  decide

/-- C4 (amended): for a v3 Connect whose connect-flags byte has bit 2
(will flag) clear, decoding fails with `InvalidConnectFlags` whenever
the will-qos bits (bits 3-4) are nonzero — the will-retain bit alone is
not rejected — and when bit 2 is set the LastWill fields (topic,
payload, qos, retain) are decoded and present in the result. -/
theorem connect_will_flag_handling :
    (∀ flags ka : Nat, ∀ cid rest : List Nat,
      flags % 2 = 0 → flags / 4 % 2 = 0 → flags / 8 % 4 ≠ 0 →
      ka < 65536 → utf8Valid cid = true → cid.length < 65536 →
      Connect.decodeWithProtocol .V311
        (flags :: (writeU16 ka ++ (writeString cid ++ rest))) =
        .error (.invalidConnectFlags flags)) ∧
    (∀ flags ka : Nat, ∀ q : QoS, ∀ cid topic msg rest : List Nat,
      flags % 2 = 0 → flags / 4 % 2 ≠ 0 →
      flags / 128 % 2 = 0 → flags / 64 % 2 = 0 →
      QoS.fromU8 (flags / 8 % 4) = .ok q →
      ka < 65536 → utf8Valid cid = true → cid.length < 65536 →
      topicNameValid topic = true → topic.length < 65536 → msg.length < 65536 →
      Connect.decodeWithProtocol .V311
        (flags :: (writeU16 ka ++ (writeString cid ++ (writeString topic ++
          (writeBytes msg ++ rest))))) =
        .ok (⟨.V311, flags / 2 % 2 == 1, ka, cid,
              some ⟨q, flags / 32 % 2 == 1, topic, msg⟩, none, none⟩, rest)) := by
  constructor
  · intro flags ka cid rest h0 h2 h34 hka hcid hcidl
    simp only [Connect.decodeWithProtocol, DecE.bind_def, Protocol.asU8]
    rw [if_neg (by omega)]
    rw [DecE.bind_eval (readU8_cons flags _)]
    rw [if_neg (by omega)]
    rw [DecE.bind_eval (readU16_enc hka _)]
    rw [DecE.bind_eval (readString_enc hcid hcidl _)]
    rw [if_neg (by omega), if_pos h34]
    rfl
  · intro flags ka q cid topic msg rest h0 h2 h7 h6 hq hka hcid hcidl htn htl hml
    simp only [Connect.decodeWithProtocol, DecE.bind_def, Protocol.asU8]
    rw [if_neg (by omega)]
    rw [DecE.bind_eval (readU8_cons flags _)]
    rw [if_neg (by omega)]
    rw [DecE.bind_eval (readU16_enc hka _)]
    rw [DecE.bind_eval (readString_enc hcid hcidl _)]
    rw [if_pos h2]
    simp only [DecE.bind_assoc]
    rw [DecE.bind_eval (readString_enc (topicNameValid_utf8 htn) htl _)]
    rw [DecE.bind_eval (readBytes_enc hml rest)]
    rw [DecE.bind_eval (show DecE.ofExcept (QoS.fromU8 (flags / 8 % 4)) rest =
      .ok (q, rest) from by rw [hq]; rfl)]
    rw [DecE.bind_eval (show DecE.ofExcept (topicNameCheck topic) rest =
      .ok ((), rest) from by rw [topicNameCheck_ok htn]; rfl)]
    rw [DecE.bind_pure]
    rw [if_neg (by omega)]
    rw [DecE.bind_pure]
    rw [if_neg (by omega)]
    rw [DecE.bind_pure]
    rfl

/-- Witness for C4 (amended) at flags 8 (will-qos bits nonzero, will
clear) and flags 6 (will set, clean set). -/
theorem connect_will_flag_handling_witness :
    ((8 : Nat) % 2 = 0 ∧ (8 : Nat) / 4 % 2 = 0 ∧ (8 : Nat) / 8 % 4 ≠ 0 ∧
     Connect.decodeWithProtocol .V311 (8 :: (writeU16 10 ++ (writeString [97] ++ []))) =
       .error (.invalidConnectFlags 8)) ∧
    (QoS.fromU8 ((6 : Nat) / 8 % 4) = .ok .Level0 ∧ topicNameValid [97] = true ∧
     Connect.decodeWithProtocol .V311 (6 :: (writeU16 10 ++ (writeString [99] ++
       (writeString [97] ++ (writeBytes [98] ++ []))))) =
       .ok (⟨.V311, (6 : Nat) / 2 % 2 == 1, 10, [99],
             some ⟨.Level0, (6 : Nat) / 32 % 2 == 1, [97], [98]⟩, none, none⟩, [])) :=
  ⟨⟨by decide, by decide, by decide,
    connect_will_flag_handling.1 8 10 [97] [] (by decide) (by decide) (by decide)
      (by decide) (by decide) (by decide)⟩,
   ⟨by decide, by decide,
    connect_will_flag_handling.2 6 10 .Level0 [99] [97] [98] [] (by decide) (by decide)
      (by decide) (by decide) (by decide) (by decide) (by decide) (by decide)
      (by decide) (by decide) (by decide)⟩⟩

/-- C3: for every v5 ack packet (Puback, Pubrec, Pubrel, Pubcomp),
decoding with remaining length 2 yields reason code `Success` and
default properties, with 3 the read reason-code byte and default
properties, and above 3 the reason code followed by a properties block;
dually, encoding omits both the reason byte and the properties when the
reason is `Success` and the properties are default (`encode_len == 2`),
and omits only the properties when they are default but the reason is
not `Success` (`encode_len == 3`). -/
theorem ack_length_dispatch_and_encode :
    ((∀ hi lo : Nat, ∀ rest : List Nat, hi * 256 + lo ≠ 0 →
      V5.Puback.decode (pubackHeader 2) (hi :: lo :: rest) =
        .ok (⟨hi * 256 + lo, .success, .default⟩, rest)) ∧
    (∀ hi lo b : Nat, ∀ rest : List Nat, ∀ rc : V5.PubackReasonCode,
      hi * 256 + lo ≠ 0 → V5.PubackReasonCode.fromU8 b = some rc →
      V5.Puback.decode (pubackHeader 3) (hi :: lo :: b :: rest) =
        .ok (⟨hi * 256 + lo, rc, .default⟩, rest)) ∧
    (∀ rl hi lo b : Nat, ∀ rest : List Nat, ∀ rc : V5.PubackReasonCode,
      3 < rl → hi * 256 + lo ≠ 0 → V5.PubackReasonCode.fromU8 b = some rc →
      V5.Puback.decode (pubackHeader rl) (hi :: lo :: b :: rest) =
        (match V5.AckProperties.decode .puback rest with
         | .ok (props, rest2) => .ok (⟨hi * 256 + lo, rc, props⟩, rest2)
         | .error e => .error e)) ∧
    (∀ p : V5.Puback, p.properties = .default → p.reason_code = .success →
      p.encode = writeU16 p.pid ∧ p.encodeLen = 2) ∧
    (∀ p : V5.Puback, p.properties = .default → p.reason_code ≠ .success →
      p.encode = writeU16 p.pid ++ [p.reason_code.toU8] ∧ p.encodeLen = 3) ∧
    (∀ p : V5.Puback, p.properties ≠ .default →
      p.encode = writeU16 p.pid ++ p.reason_code.toU8 :: p.properties.encode ∧
      p.encodeLen = 3 + p.properties.encodeLen)) ∧
    ((∀ hi lo : Nat, ∀ rest : List Nat, hi * 256 + lo ≠ 0 →
      V5.Pubrec.decode (pubrecHeader 2) (hi :: lo :: rest) =
        .ok (⟨hi * 256 + lo, .success, .default⟩, rest)) ∧
    (∀ hi lo b : Nat, ∀ rest : List Nat, ∀ rc : V5.PubrecReasonCode,
      hi * 256 + lo ≠ 0 → V5.PubrecReasonCode.fromU8 b = some rc →
      V5.Pubrec.decode (pubrecHeader 3) (hi :: lo :: b :: rest) =
        .ok (⟨hi * 256 + lo, rc, .default⟩, rest)) ∧
    (∀ rl hi lo b : Nat, ∀ rest : List Nat, ∀ rc : V5.PubrecReasonCode,
      3 < rl → hi * 256 + lo ≠ 0 → V5.PubrecReasonCode.fromU8 b = some rc →
      V5.Pubrec.decode (pubrecHeader rl) (hi :: lo :: b :: rest) =
        (match V5.AckProperties.decode .pubrec rest with
         | .ok (props, rest2) => .ok (⟨hi * 256 + lo, rc, props⟩, rest2)
         | .error e => .error e)) ∧
    (∀ p : V5.Pubrec, p.properties = .default → p.reason_code = .success →
      p.encode = writeU16 p.pid ∧ p.encodeLen = 2) ∧
    (∀ p : V5.Pubrec, p.properties = .default → p.reason_code ≠ .success →
      p.encode = writeU16 p.pid ++ [p.reason_code.toU8] ∧ p.encodeLen = 3) ∧
    (∀ p : V5.Pubrec, p.properties ≠ .default →
      p.encode = writeU16 p.pid ++ p.reason_code.toU8 :: p.properties.encode ∧
      p.encodeLen = 3 + p.properties.encodeLen)) ∧
    ((∀ hi lo : Nat, ∀ rest : List Nat, hi * 256 + lo ≠ 0 →
      V5.Pubrel.decode (pubrelHeader 2) (hi :: lo :: rest) =
        .ok (⟨hi * 256 + lo, .success, .default⟩, rest)) ∧
    (∀ hi lo b : Nat, ∀ rest : List Nat, ∀ rc : V5.PubrelReasonCode,
      hi * 256 + lo ≠ 0 → V5.PubrelReasonCode.fromU8 b = some rc →
      V5.Pubrel.decode (pubrelHeader 3) (hi :: lo :: b :: rest) =
        .ok (⟨hi * 256 + lo, rc, .default⟩, rest)) ∧
    (∀ rl hi lo b : Nat, ∀ rest : List Nat, ∀ rc : V5.PubrelReasonCode,
      3 < rl → hi * 256 + lo ≠ 0 → V5.PubrelReasonCode.fromU8 b = some rc →
      V5.Pubrel.decode (pubrelHeader rl) (hi :: lo :: b :: rest) =
        (match V5.AckProperties.decode .pubrel rest with
         | .ok (props, rest2) => .ok (⟨hi * 256 + lo, rc, props⟩, rest2)
         | .error e => .error e)) ∧
    (∀ p : V5.Pubrel, p.properties = .default → p.reason_code = .success →
      p.encode = writeU16 p.pid ∧ p.encodeLen = 2) ∧
    (∀ p : V5.Pubrel, p.properties = .default → p.reason_code ≠ .success →
      p.encode = writeU16 p.pid ++ [p.reason_code.toU8] ∧ p.encodeLen = 3) ∧
    (∀ p : V5.Pubrel, p.properties ≠ .default →
      p.encode = writeU16 p.pid ++ p.reason_code.toU8 :: p.properties.encode ∧
      p.encodeLen = 3 + p.properties.encodeLen)) ∧
    ((∀ hi lo : Nat, ∀ rest : List Nat, hi * 256 + lo ≠ 0 →
      V5.Pubcomp.decode (pubcompHeader 2) (hi :: lo :: rest) =
        .ok (⟨hi * 256 + lo, .success, .default⟩, rest)) ∧
    (∀ hi lo b : Nat, ∀ rest : List Nat, ∀ rc : V5.PubcompReasonCode,
      hi * 256 + lo ≠ 0 → V5.PubcompReasonCode.fromU8 b = some rc →
      V5.Pubcomp.decode (pubcompHeader 3) (hi :: lo :: b :: rest) =
        .ok (⟨hi * 256 + lo, rc, .default⟩, rest)) ∧
    (∀ rl hi lo b : Nat, ∀ rest : List Nat, ∀ rc : V5.PubcompReasonCode,
      3 < rl → hi * 256 + lo ≠ 0 → V5.PubcompReasonCode.fromU8 b = some rc →
      V5.Pubcomp.decode (pubcompHeader rl) (hi :: lo :: b :: rest) =
        (match V5.AckProperties.decode .pubcomp rest with
         | .ok (props, rest2) => .ok (⟨hi * 256 + lo, rc, props⟩, rest2)
         | .error e => .error e)) ∧
    (∀ p : V5.Pubcomp, p.properties = .default → p.reason_code = .success →
      p.encode = writeU16 p.pid ∧ p.encodeLen = 2) ∧
    (∀ p : V5.Pubcomp, p.properties = .default → p.reason_code ≠ .success →
      p.encode = writeU16 p.pid ++ [p.reason_code.toU8] ∧ p.encodeLen = 3) ∧
    (∀ p : V5.Pubcomp, p.properties ≠ .default →
      p.encode = writeU16 p.pid ++ p.reason_code.toU8 :: p.properties.encode ∧
      p.encodeLen = 3 + p.properties.encodeLen)) := by
  refine ⟨?_, ?_, ?_, ?_⟩
  · refine ⟨fun hi lo rest h0 => ?_, fun hi lo b rest rc h0 hb => ?_,
      fun rl hi lo b rest rc h3 h0 hb => ?_, fun p h1 h2 => ?_, fun p h1 h2 => ?_,
      fun p h1 => ?_⟩
    · simp only [V5.Puback.decode, DecE.bind_def, pubackHeader]
      rw [DecE.bind_eval (liftD_ok (readPid_cons h0))]
      rfl
    · simp only [V5.Puback.decode, DecE.bind_def, pubackHeader]
      rw [DecE.bind_eval (liftD_ok (readPid_cons h0))]
      rw [if_neg (by omega), if_pos (by decide)]
      rw [DecE.bind_eval (liftD_ok (readU8_cons b rest))]
      rw [hb]
      rfl
    · simp only [V5.Puback.decode, DecE.bind_def, pubackHeader]
      rw [DecE.bind_eval (liftD_ok (readPid_cons h0))]
      rw [if_neg (by omega), if_neg (by omega)]
      rw [DecE.bind_eval (liftD_ok (readU8_cons b rest))]
      rw [hb]
      cases hp : V5.AckProperties.decode .puback rest with
      | error e => simp [DecE.bind, hp]
      | ok q =>
        obtain ⟨props, r⟩ := q
        simp [DecE.bind, hp, DecE.pure_def, DecE.pure]
    · constructor
      · simp [V5.Puback.encode, h1, h2]
      · simp [V5.Puback.encodeLen, h1, h2]
    · constructor
      · simp [V5.Puback.encode, h1, h2]
      · simp [V5.Puback.encodeLen, h1, h2]
    · constructor
      · simp [V5.Puback.encode, h1]
      · simp [V5.Puback.encodeLen, h1]
  · refine ⟨fun hi lo rest h0 => ?_, fun hi lo b rest rc h0 hb => ?_,
      fun rl hi lo b rest rc h3 h0 hb => ?_, fun p h1 h2 => ?_, fun p h1 h2 => ?_,
      fun p h1 => ?_⟩
    · simp only [V5.Pubrec.decode, DecE.bind_def, pubrecHeader]
      rw [DecE.bind_eval (liftD_ok (readPid_cons h0))]
      rfl
    · simp only [V5.Pubrec.decode, DecE.bind_def, pubrecHeader]
      rw [DecE.bind_eval (liftD_ok (readPid_cons h0))]
      rw [if_neg (by omega), if_pos (by decide)]
      rw [DecE.bind_eval (liftD_ok (readU8_cons b rest))]
      rw [hb]
      rfl
    · simp only [V5.Pubrec.decode, DecE.bind_def, pubrecHeader]
      rw [DecE.bind_eval (liftD_ok (readPid_cons h0))]
      rw [if_neg (by omega), if_neg (by omega)]
      rw [DecE.bind_eval (liftD_ok (readU8_cons b rest))]
      rw [hb]
      cases hp : V5.AckProperties.decode .pubrec rest with
      | error e => simp [DecE.bind, hp]
      | ok q =>
        obtain ⟨props, r⟩ := q
        simp [DecE.bind, hp, DecE.pure_def, DecE.pure]
    · constructor
      · simp [V5.Pubrec.encode, h1, h2]
      · simp [V5.Pubrec.encodeLen, h1, h2]
    · constructor
      · simp [V5.Pubrec.encode, h1, h2]
      · simp [V5.Pubrec.encodeLen, h1, h2]
    · constructor
      · simp [V5.Pubrec.encode, h1]
      · simp [V5.Pubrec.encodeLen, h1]
  · refine ⟨fun hi lo rest h0 => ?_, fun hi lo b rest rc h0 hb => ?_,
      fun rl hi lo b rest rc h3 h0 hb => ?_, fun p h1 h2 => ?_, fun p h1 h2 => ?_,
      fun p h1 => ?_⟩
    · simp only [V5.Pubrel.decode, DecE.bind_def, pubrelHeader]
      rw [DecE.bind_eval (liftD_ok (readPid_cons h0))]
      rfl
    · simp only [V5.Pubrel.decode, DecE.bind_def, pubrelHeader]
      rw [DecE.bind_eval (liftD_ok (readPid_cons h0))]
      rw [if_neg (by omega), if_pos (by decide)]
      rw [DecE.bind_eval (liftD_ok (readU8_cons b rest))]
      rw [hb]
      rfl
    · simp only [V5.Pubrel.decode, DecE.bind_def, pubrelHeader]
      rw [DecE.bind_eval (liftD_ok (readPid_cons h0))]
      rw [if_neg (by omega), if_neg (by omega)]
      rw [DecE.bind_eval (liftD_ok (readU8_cons b rest))]
      rw [hb]
      cases hp : V5.AckProperties.decode .pubrel rest with
      | error e => simp [DecE.bind, hp]
      | ok q =>
        obtain ⟨props, r⟩ := q
        simp [DecE.bind, hp, DecE.pure_def, DecE.pure]
    · constructor
      · simp [V5.Pubrel.encode, h1, h2]
      · simp [V5.Pubrel.encodeLen, h1, h2]
    · constructor
      · simp [V5.Pubrel.encode, h1, h2]
      · simp [V5.Pubrel.encodeLen, h1, h2]
    · constructor
      · simp [V5.Pubrel.encode, h1]
      · simp [V5.Pubrel.encodeLen, h1]
  · refine ⟨fun hi lo rest h0 => ?_, fun hi lo b rest rc h0 hb => ?_,
      fun rl hi lo b rest rc h3 h0 hb => ?_, fun p h1 h2 => ?_, fun p h1 h2 => ?_,
      fun p h1 => ?_⟩
    · simp only [V5.Pubcomp.decode, DecE.bind_def, pubcompHeader]
      rw [DecE.bind_eval (liftD_ok (readPid_cons h0))]
      rfl
    · simp only [V5.Pubcomp.decode, DecE.bind_def, pubcompHeader]
      rw [DecE.bind_eval (liftD_ok (readPid_cons h0))]
      rw [if_neg (by omega), if_pos (by decide)]
      rw [DecE.bind_eval (liftD_ok (readU8_cons b rest))]
      rw [hb]
      rfl
    · simp only [V5.Pubcomp.decode, DecE.bind_def, pubcompHeader]
      rw [DecE.bind_eval (liftD_ok (readPid_cons h0))]
      rw [if_neg (by omega), if_neg (by omega)]
      rw [DecE.bind_eval (liftD_ok (readU8_cons b rest))]
      rw [hb]
      cases hp : V5.AckProperties.decode .pubcomp rest with
      | error e => simp [DecE.bind, hp]
      | ok q =>
        obtain ⟨props, r⟩ := q
        simp [DecE.bind, hp, DecE.pure_def, DecE.pure]
    · constructor
      · simp [V5.Pubcomp.encode, h1, h2]
      · simp [V5.Pubcomp.encodeLen, h1, h2]
    · constructor
      · simp [V5.Pubcomp.encode, h1, h2]
      · simp [V5.Pubcomp.encodeLen, h1, h2]
    · constructor
      · simp [V5.Pubcomp.encode, h1]
      · simp [V5.Pubcomp.encodeLen, h1]

/-- Witness for C3: Puback with pid 10 at the three remaining-length
shapes. -/
theorem ack_length_dispatch_and_encode_witness :
    ((0 : Nat) * 256 + 10 ≠ 0) ∧ V5.PubackReasonCode.fromU8 16 = some .noMatchingSubscribers ∧
    ((3 : Nat) < 8) ∧
    V5.Puback.decode (pubackHeader 2) [0, 10] = .ok (⟨10, .success, .default⟩, []) ∧
    V5.Puback.decode (pubackHeader 3) [0, 10, 16] =
      .ok (⟨10, .noMatchingSubscribers, .default⟩, []) ∧
    V5.Puback.decode (pubackHeader 8) [0, 10, 16, 4, 31, 0, 1, 97] =
      (match V5.AckProperties.decode .puback [4, 31, 0, 1, 97] with
       | .ok (props, rest2) => .ok (⟨10, .noMatchingSubscribers, props⟩, rest2)
       | .error e => .error e) := by
  refine ⟨by decide, by decide, by decide, ?_, ?_, ?_⟩
  · have := ack_length_dispatch_and_encode.1.1 0 10 [] (by decide)
    simpa using this
  · have := ack_length_dispatch_and_encode.1.2.1 0 10 16 [] .noMatchingSubscribers
      (by decide) (by decide)
    simpa using this
  · have := ack_length_dispatch_and_encode.1.2.2.1 8 0 10 16 [4, 31, 0, 1, 97]
      .noMatchingSubscribers (by decide) (by decide) (by decide)
    simpa using this

/-- A v5 Publish fixed header at QoS 0 without dup or retain. -/
def publishHeader (rl : Nat) : V5.Header := ⟨.publish, false, .Level0, false, rl⟩

theorem qosFromU8_toU8 (q : QoS) : QoS.fromU8 q.toU8 = .ok q := by
  cases q <;> rfl

/-- Bit decomposition of the connect-flags byte assembled by
`Connect::encode`. -/
theorem flagsByte_facts (c : Connect) :
    c.flagsByte % 2 = 0 ∧
    ((c.flagsByte / 2 % 2 == 1) = c.clean_session) ∧
    (c.last_will = none → c.flagsByte / 4 % 2 = 0 ∧ c.flagsByte / 8 % 4 = 0) ∧
    (∀ w : LastWill, c.last_will = some w → c.flagsByte / 4 % 2 = 1 ∧
      c.flagsByte / 8 % 4 = w.qos.toU8 ∧ ((c.flagsByte / 32 % 2 == 1) = w.retain)) ∧
    (c.username = none → c.flagsByte / 128 % 2 = 0) ∧
    (∀ u : List Nat, c.username = some u → c.flagsByte / 128 % 2 = 1) ∧
    (c.password = none → c.flagsByte / 64 % 2 = 0) ∧
    (∀ p : List Nat, c.password = some p → c.flagsByte / 64 % 2 = 1) := by
  obtain ⟨proto, cs, ka, cid, lw, un, pw⟩ := c
  rcases lw with _ | ⟨q, r, t, m⟩
  · cases cs <;> rcases un with _ | u <;> rcases pw with _ | pw' <;>
      simp [Connect.flagsByte]
  · cases q <;> cases r <;> cases cs <;> rcases un with _ | u <;>
      rcases pw with _ | pw' <;> simp [Connect.flagsByte, QoS.toU8]

theorem asU8_not_gt {p : Protocol} (h : p ≠ .V50) : ¬(4 < p.asU8) := by
  cases p
  · decide
  · decide
  · exact absurd rfl h

/-- Well-formed v3 Connect values: the encodable range of every field
(protocol below V50, 16-bit lengths, UTF-8 strings, a valid will
topic). -/
def WfConnect (c : Connect) : Prop :=
  c.protocol ≠ .V50 ∧
  (utf8Valid c.client_id = true ∧ c.client_id.length < 65536) ∧
  c.keep_alive < 65536 ∧
  (∀ w : LastWill, c.last_will = some w → topicNameValid w.topic_name = true ∧
    w.topic_name.length < 65536 ∧ w.message.length < 65536) ∧
  (∀ u : List Nat, c.username = some u → utf8Valid u = true ∧ u.length < 65536) ∧
  (∀ p : List Nat, c.password = some p → p.length < 65536)

/-- Well-formed ack property lists: encodable strings and a body length
in the var-byte-int range. -/
def WfAckProperties (props : V5.AckProperties) : Prop :=
  (∀ s : List Nat, props.reason_string = some s →
    utf8Valid s = true ∧ s.length < 65536) ∧
  (∀ kv ∈ props.user_properties,
    (utf8Valid kv.1 = true ∧ kv.1.length < 65536) ∧
    (utf8Valid kv.2 = true ∧ kv.2.length < 65536)) ∧
  props.bodyLen < 268435456

/-- Well-formed v5 Puback values. -/
def WfPuback (p : V5.Puback) : Prop :=
  p.pid ≠ 0 ∧ p.pid < 65536 ∧ WfAckProperties p.properties

/-- C8: decoding a v5 Publish whose `PayloadFormatIndicator` property is
1 fails with `InvalidPayloadFormat` when the payload is nonempty and not
valid UTF-8; when the indicator is absent or 0, any payload bytes are
accepted.  The properties block is given as any byte sequence `pb` that
decodes to `props` consuming exactly itself. -/
theorem publish_payload_format_check :
    ∀ topic pb payload : List Nat, ∀ props : V5.PublishProperties,
      topicNameValid topic = true → topic.length < 65536 →
      (∀ r : List Nat, V5.PublishProperties.decode .publish (pb ++ r) = .ok (props, r)) →
      props.encodeLen = pb.length →
      ((props.payload_is_utf8 = some true → payload ≠ [] → utf8Valid payload = false →
        V5.Publish.decode
          (publishHeader (2 + topic.length + props.encodeLen + payload.length))
          (writeString topic ++ (pb ++ payload)) = .error .invalidPayloadFormat) ∧
       (props.payload_is_utf8 = none ∨ props.payload_is_utf8 = some false →
        V5.Publish.decode
          (publishHeader (2 + topic.length + props.encodeLen + payload.length))
          (writeString topic ++ (pb ++ payload)) =
          .ok (⟨false, false, .Level0, topic, payload, props⟩, []))) := by
  intro topic pb payload props htn htl hpb hpe
  have hstart : ∀ r : List Nat,
      V5.Publish.decode
        (publishHeader (2 + topic.length + props.encodeLen + payload.length))
        (writeString topic ++ (pb ++ payload)) =
      (if 0 < payload.length then
        DecE.bind (V5.liftD (readExact payload.length))
          (fun data =>
            if props.payload_is_utf8 = some true ∧ utf8Valid data = false then
              DecE.fail .invalidPayloadFormat
            else pure data)
       else pure [] : V5.DecV5 (List Nat)).bind
        (fun pl => DecE.bind (V5.liftD (DecE.ofExcept (topicNameCheck topic)))
          (fun _ => pure ⟨false, false, .Level0, topic, pl, props⟩)) payload := by
    intro r
    simp only [V5.Publish.decode, DecE.bind_def, publishHeader]
    rw [DecE.bind_eval (liftD_ok (readString_enc (topicNameValid_utf8 htn) htl _))]
    rw [DecE.bind_eval (show V5.liftD (DecE.ofExcept (checkedSub
        (2 + topic.length + props.encodeLen + payload.length) (2 + topic.length)))
        (pb ++ payload) = .ok (props.encodeLen + payload.length, pb ++ payload) from by
      rw [liftD_ok]
      rw [checkedSub_ok (by omega)]
      rw [show 2 + topic.length + props.encodeLen + payload.length - (2 + topic.length) =
        props.encodeLen + payload.length from by omega]
      rfl)]
    rw [DecE.bind_pure]
    simp only [DecE.bind_assoc]
    rw [DecE.bind_eval (hpb payload)]
    rw [DecE.bind_eval (show V5.liftD (DecE.ofExcept (checkedSub
        (props.encodeLen + payload.length) props.encodeLen)) payload =
        .ok (payload.length, payload) from by
      rw [liftD_ok]
      rw [checkedSub_ok (by omega)]
      rw [show props.encodeLen + payload.length - props.encodeLen = payload.length
        from by omega]
      rfl)]
  constructor
  · intro hpfi hne hbad
    rw [hstart []]
    rw [if_pos (by cases payload with
      | nil => exact absurd rfl hne
      | cons a t => simp)]
    simp only [DecE.bind_assoc, DecE.bind_def]
    rw [DecE.bind_eval (liftD_ok (show readExact payload.length payload =
      .ok (payload, []) from by
        have := readExact_enc (rfl : payload.length = payload.length) []
        simpa using this))]
    rw [if_pos ⟨hpfi, hbad⟩]
    rfl
  · intro hpfi
    by_cases hpl : payload = []
    · subst hpl
      rw [hstart []]
      rw [if_neg (by simp)]
      rw [DecE.bind_pure]
      rw [DecE.bind_eval (liftD_ok (show DecE.ofExcept (topicNameCheck topic) [] =
        .ok ((), []) from by rw [topicNameCheck_ok htn]; rfl))]
      rfl
    · rw [hstart []]
      rw [if_pos (by cases payload with
        | nil => exact absurd rfl hpl
        | cons a t => simp)]
      simp only [DecE.bind_assoc, DecE.bind_def]
      rw [DecE.bind_eval (liftD_ok (show readExact payload.length payload =
        .ok (payload, []) from by
          have := readExact_enc (rfl : payload.length = payload.length) []
          simpa using this))]
      rw [if_neg (by rcases hpfi with h | h <;> simp [h])]
      rw [DecE.bind_pure]
      rw [DecE.bind_eval (liftD_ok (show DecE.ofExcept (topicNameCheck topic) [] =
        .ok ((), []) from by rw [topicNameCheck_ok htn]; rfl))]
      rfl

/-- Witness for C8: topic `a`, a properties block carrying
`PayloadFormatIndicator = 1`, and the single non-UTF-8 payload byte
`0xC0`; the accepted side at indicator absent with payload `hi`. -/
theorem publish_payload_format_check_witness :
    topicNameValid [97] = true ∧ utf8Valid [192] = false ∧
    V5.Publish.decode (publishHeader (2 + ([97] : List Nat).length +
        V5.PublishProperties.encodeLen
          { V5.PublishProperties.default with payload_is_utf8 := some true } +
        ([192] : List Nat).length))
      (writeString [97] ++ ([2, 1, 1] ++ [192])) = .error .invalidPayloadFormat ∧
    V5.Publish.decode (publishHeader (2 + ([97] : List Nat).length +
        V5.PublishProperties.encodeLen V5.PublishProperties.default +
        ([104, 105] : List Nat).length))
      (writeString [97] ++ ([0] ++ [104, 105])) =
      .ok (⟨false, false, .Level0, [97], [104, 105], V5.PublishProperties.default⟩, []) := by
  have h1 : ∀ r : List Nat, V5.PublishProperties.decode .publish ([2, 1, 1] ++ r) =
      .ok ({ V5.PublishProperties.default with payload_is_utf8 := some true }, r) := by
    intro r
    rw [show ([2, 1, 1] ++ r : List Nat) = 2 :: 1 :: 1 :: r from rfl]
    have hv : decodeVarInt (2 :: 1 :: 1 :: r) = .ok (2, 1 :: 1 :: r) := rfl
    simp only [V5.PublishProperties.decode, hv]
    rw [V5.publishPropsLoop.eq_def]
    norm_num [V5.PublishProperties.default]
    rw [V5.publishPropsLoop.eq_def]
    simp
  have h2 : ∀ r : List Nat, V5.PublishProperties.decode .publish ([0] ++ r) =
      .ok (V5.PublishProperties.default, r) := by
    intro r
    rw [show ([0] ++ r : List Nat) = 0 :: r from rfl]
    have hv : decodeVarInt (0 :: r) = .ok (0, r) := rfl
    simp only [V5.PublishProperties.decode, hv]
    rw [V5.publishPropsLoop.eq_def]
    simp
  refine ⟨by decide, by decide, ?_, ?_⟩
  · exact (publish_payload_format_check [97] [2, 1, 1] [192]
      { V5.PublishProperties.default with payload_is_utf8 := some true }
      (by decide) (by decide) h1 (by decide)).1 rfl (by decide) (by decide)
  · exact (publish_payload_format_check [97] [0] [104, 105]
      V5.PublishProperties.default
      (by decide) (by decide) h2 (by decide)).2 (Or.inl rfl)

/-- Round trip of the v3 Connect body: decoding the encoding of a
well-formed Connect returns it, consuming the whole encoding. -/
theorem connect_decode_encode (c : Connect) (h : WfConnect c) :
    Connect.decode (Connect.encode c) = .ok (c, []) := by
  obtain ⟨f0, f1, f2, f3, f4, f5, f6, f7⟩ := flagsByte_facts c
  obtain ⟨proto, cs, ka, cid, lw, un, pw⟩ := c
  obtain ⟨hproto, ⟨hcidu, hcidl⟩, hka, hwill, huser, hpass⟩ := h
  simp only at f0 f1 f2 f3 f4 f5 f6 f7
  set F := (Connect.mk proto cs ka cid lw un pw).flagsByte with hF
  rw [show Connect.encode (Connect.mk proto cs ka cid lw un pw) =
    Connect.encode (Connect.mk proto cs ka cid lw un pw) ++ [] from
    (List.append_nil _).symm]
  rcases lw with _ | ⟨q, r, t, m⟩ <;> rcases un with _ | u <;> rcases pw with _ | pw'
  · -- last_will none, username none, password none
    obtain ⟨g2, g3⟩ := f2 rfl
    have g7 := f4 rfl
    have g6 := f6 rfl
    simp only [Connect.encode, Connect.decode, DecE.bind_def, LastWill.encode,
      writeU8, List.append_assoc, List.cons_append, List.nil_append]
    rw [DecE.bind_eval (protocol_decode_enc proto _)]
    simp only [Connect.decodeWithProtocol, DecE.bind_def]
    rw [if_neg (asU8_not_gt hproto)]
    rw [DecE.bind_eval (readU8_cons _ _)]
    rw [if_neg (show ¬(F % 2 ≠ 0) from by omega)]
    rw [DecE.bind_eval (readU16_enc hka _)]
    rw [DecE.bind_eval (readString_enc hcidu hcidl _)]
    rw [if_neg (show ¬(F / 4 % 2 ≠ 0) from by omega)]
    rw [if_neg (show ¬(F / 8 % 4 ≠ 0) from by omega)]
    rw [DecE.bind_pure]
    rw [if_neg (show ¬(F / 128 % 2 ≠ 0) from by omega)]
    rw [DecE.bind_pure]
    rw [if_neg (show ¬(F / 64 % 2 ≠ 0) from by omega)]
    rw [DecE.bind_pure]
    simp only [DecE.pure_def, DecE.pure, f1]
  · -- last_will none, username none, password some
    obtain ⟨g2, g3⟩ := f2 rfl
    have g7 := f4 rfl
    have g6 := f7 pw' rfl
    have hpl := hpass pw' rfl
    simp only [Connect.encode, Connect.decode, DecE.bind_def, LastWill.encode,
      writeU8, List.append_assoc, List.cons_append, List.nil_append]
    rw [DecE.bind_eval (protocol_decode_enc proto _)]
    simp only [Connect.decodeWithProtocol, DecE.bind_def]
    rw [if_neg (asU8_not_gt hproto)]
    rw [DecE.bind_eval (readU8_cons _ _)]
    rw [if_neg (show ¬(F % 2 ≠ 0) from by omega)]
    rw [DecE.bind_eval (readU16_enc hka _)]
    rw [DecE.bind_eval (readString_enc hcidu hcidl _)]
    rw [if_neg (show ¬(F / 4 % 2 ≠ 0) from by omega)]
    rw [if_neg (show ¬(F / 8 % 4 ≠ 0) from by omega)]
    rw [DecE.bind_pure]
    rw [if_neg (show ¬(F / 128 % 2 ≠ 0) from by omega)]
    rw [DecE.bind_pure]
    rw [if_pos (show F / 64 % 2 ≠ 0 from by omega)]
    simp only [DecE.bind_assoc]
    rw [DecE.bind_eval (readBytes_enc hpl _)]
    rw [DecE.bind_pure]
    simp only [DecE.pure_def, DecE.pure, f1]
  · -- last_will none, username some, password none
    obtain ⟨g2, g3⟩ := f2 rfl
    have g7 := f5 u rfl
    obtain ⟨huu, hul⟩ := huser u rfl
    have g6 := f6 rfl
    simp only [Connect.encode, Connect.decode, DecE.bind_def, LastWill.encode,
      writeU8, List.append_assoc, List.cons_append, List.nil_append]
    rw [DecE.bind_eval (protocol_decode_enc proto _)]
    simp only [Connect.decodeWithProtocol, DecE.bind_def]
    rw [if_neg (asU8_not_gt hproto)]
    rw [DecE.bind_eval (readU8_cons _ _)]
    rw [if_neg (show ¬(F % 2 ≠ 0) from by omega)]
    rw [DecE.bind_eval (readU16_enc hka _)]
    rw [DecE.bind_eval (readString_enc hcidu hcidl _)]
    rw [if_neg (show ¬(F / 4 % 2 ≠ 0) from by omega)]
    rw [if_neg (show ¬(F / 8 % 4 ≠ 0) from by omega)]
    rw [DecE.bind_pure]
    rw [if_pos (show F / 128 % 2 ≠ 0 from by omega)]
    simp only [DecE.bind_assoc]
    rw [DecE.bind_eval (readString_enc huu hul _)]
    rw [DecE.bind_pure]
    rw [if_neg (show ¬(F / 64 % 2 ≠ 0) from by omega)]
    rw [DecE.bind_pure]
    simp only [DecE.pure_def, DecE.pure, f1]
  · -- last_will none, username some, password some
    obtain ⟨g2, g3⟩ := f2 rfl
    have g7 := f5 u rfl
    obtain ⟨huu, hul⟩ := huser u rfl
    have g6 := f7 pw' rfl
    have hpl := hpass pw' rfl
    simp only [Connect.encode, Connect.decode, DecE.bind_def, LastWill.encode,
      writeU8, List.append_assoc, List.cons_append, List.nil_append]
    rw [DecE.bind_eval (protocol_decode_enc proto _)]
    simp only [Connect.decodeWithProtocol, DecE.bind_def]
    rw [if_neg (asU8_not_gt hproto)]
    rw [DecE.bind_eval (readU8_cons _ _)]
    rw [if_neg (show ¬(F % 2 ≠ 0) from by omega)]
    rw [DecE.bind_eval (readU16_enc hka _)]
    rw [DecE.bind_eval (readString_enc hcidu hcidl _)]
    rw [if_neg (show ¬(F / 4 % 2 ≠ 0) from by omega)]
    rw [if_neg (show ¬(F / 8 % 4 ≠ 0) from by omega)]
    rw [DecE.bind_pure]
    rw [if_pos (show F / 128 % 2 ≠ 0 from by omega)]
    simp only [DecE.bind_assoc]
    rw [DecE.bind_eval (readString_enc huu hul _)]
    rw [DecE.bind_pure]
    rw [if_pos (show F / 64 % 2 ≠ 0 from by omega)]
    simp only [DecE.bind_assoc]
    rw [DecE.bind_eval (readBytes_enc hpl _)]
    rw [DecE.bind_pure]
    simp only [DecE.pure_def, DecE.pure, f1]
  · -- last_will some, username none, password none
    obtain ⟨g2, g3, g5⟩ := f3 ⟨q, r, t, m⟩ rfl
    obtain ⟨hwt, hwtl, hwml⟩ := hwill ⟨q, r, t, m⟩ rfl
    have g7 := f4 rfl
    have g6 := f6 rfl
    simp only [Connect.encode, Connect.decode, DecE.bind_def, LastWill.encode,
      writeU8, List.append_assoc, List.cons_append, List.nil_append]
    rw [DecE.bind_eval (protocol_decode_enc proto _)]
    simp only [Connect.decodeWithProtocol, DecE.bind_def]
    rw [if_neg (asU8_not_gt hproto)]
    rw [DecE.bind_eval (readU8_cons _ _)]
    rw [if_neg (show ¬(F % 2 ≠ 0) from by omega)]
    rw [DecE.bind_eval (readU16_enc hka _)]
    rw [DecE.bind_eval (readString_enc hcidu hcidl _)]
    rw [if_pos (show F / 4 % 2 ≠ 0 from by omega)]
    simp only [DecE.bind_assoc]
    rw [DecE.bind_eval (readString_enc (topicNameValid_utf8 hwt) hwtl _)]
    rw [DecE.bind_eval (readBytes_enc hwml _)]
    rw [g3, DecE.bind_eval (show DecE.ofExcept (QoS.fromU8 q.toU8) _ = _ from by
      rw [qosFromU8_toU8]; rfl)]
    rw [DecE.bind_eval (show DecE.ofExcept (topicNameCheck t) _ = _ from by
      rw [topicNameCheck_ok hwt]; rfl)]
    rw [DecE.bind_pure]
    rw [if_neg (show ¬(F / 128 % 2 ≠ 0) from by omega)]
    rw [DecE.bind_pure]
    rw [if_neg (show ¬(F / 64 % 2 ≠ 0) from by omega)]
    rw [DecE.bind_pure]
    simp only [DecE.pure_def, DecE.pure, f1, g5]
  · -- last_will some, username none, password some
    obtain ⟨g2, g3, g5⟩ := f3 ⟨q, r, t, m⟩ rfl
    obtain ⟨hwt, hwtl, hwml⟩ := hwill ⟨q, r, t, m⟩ rfl
    have g7 := f4 rfl
    have g6 := f7 pw' rfl
    have hpl := hpass pw' rfl
    simp only [Connect.encode, Connect.decode, DecE.bind_def, LastWill.encode,
      writeU8, List.append_assoc, List.cons_append, List.nil_append]
    rw [DecE.bind_eval (protocol_decode_enc proto _)]
    simp only [Connect.decodeWithProtocol, DecE.bind_def]
    rw [if_neg (asU8_not_gt hproto)]
    rw [DecE.bind_eval (readU8_cons _ _)]
    rw [if_neg (show ¬(F % 2 ≠ 0) from by omega)]
    rw [DecE.bind_eval (readU16_enc hka _)]
    rw [DecE.bind_eval (readString_enc hcidu hcidl _)]
    rw [if_pos (show F / 4 % 2 ≠ 0 from by omega)]
    simp only [DecE.bind_assoc]
    rw [DecE.bind_eval (readString_enc (topicNameValid_utf8 hwt) hwtl _)]
    rw [DecE.bind_eval (readBytes_enc hwml _)]
    rw [g3, DecE.bind_eval (show DecE.ofExcept (QoS.fromU8 q.toU8) _ = _ from by
      rw [qosFromU8_toU8]; rfl)]
    rw [DecE.bind_eval (show DecE.ofExcept (topicNameCheck t) _ = _ from by
      rw [topicNameCheck_ok hwt]; rfl)]
    rw [DecE.bind_pure]
    rw [if_neg (show ¬(F / 128 % 2 ≠ 0) from by omega)]
    rw [DecE.bind_pure]
    rw [if_pos (show F / 64 % 2 ≠ 0 from by omega)]
    simp only [DecE.bind_assoc]
    rw [DecE.bind_eval (readBytes_enc hpl _)]
    rw [DecE.bind_pure]
    simp only [DecE.pure_def, DecE.pure, f1, g5]
  · -- last_will some, username some, password none
    obtain ⟨g2, g3, g5⟩ := f3 ⟨q, r, t, m⟩ rfl
    obtain ⟨hwt, hwtl, hwml⟩ := hwill ⟨q, r, t, m⟩ rfl
    have g7 := f5 u rfl
    obtain ⟨huu, hul⟩ := huser u rfl
    have g6 := f6 rfl
    simp only [Connect.encode, Connect.decode, DecE.bind_def, LastWill.encode,
      writeU8, List.append_assoc, List.cons_append, List.nil_append]
    rw [DecE.bind_eval (protocol_decode_enc proto _)]
    simp only [Connect.decodeWithProtocol, DecE.bind_def]
    rw [if_neg (asU8_not_gt hproto)]
    rw [DecE.bind_eval (readU8_cons _ _)]
    rw [if_neg (show ¬(F % 2 ≠ 0) from by omega)]
    rw [DecE.bind_eval (readU16_enc hka _)]
    rw [DecE.bind_eval (readString_enc hcidu hcidl _)]
    rw [if_pos (show F / 4 % 2 ≠ 0 from by omega)]
    simp only [DecE.bind_assoc]
    rw [DecE.bind_eval (readString_enc (topicNameValid_utf8 hwt) hwtl _)]
    rw [DecE.bind_eval (readBytes_enc hwml _)]
    rw [g3, DecE.bind_eval (show DecE.ofExcept (QoS.fromU8 q.toU8) _ = _ from by
      rw [qosFromU8_toU8]; rfl)]
    rw [DecE.bind_eval (show DecE.ofExcept (topicNameCheck t) _ = _ from by
      rw [topicNameCheck_ok hwt]; rfl)]
    rw [DecE.bind_pure]
    rw [if_pos (show F / 128 % 2 ≠ 0 from by omega)]
    simp only [DecE.bind_assoc]
    rw [DecE.bind_eval (readString_enc huu hul _)]
    rw [DecE.bind_pure]
    rw [if_neg (show ¬(F / 64 % 2 ≠ 0) from by omega)]
    rw [DecE.bind_pure]
    simp only [DecE.pure_def, DecE.pure, f1, g5]
  · -- last_will some, username some, password some
    obtain ⟨g2, g3, g5⟩ := f3 ⟨q, r, t, m⟩ rfl
    obtain ⟨hwt, hwtl, hwml⟩ := hwill ⟨q, r, t, m⟩ rfl
    have g7 := f5 u rfl
    obtain ⟨huu, hul⟩ := huser u rfl
    have g6 := f7 pw' rfl
    have hpl := hpass pw' rfl
    simp only [Connect.encode, Connect.decode, DecE.bind_def, LastWill.encode,
      writeU8, List.append_assoc, List.cons_append, List.nil_append]
    rw [DecE.bind_eval (protocol_decode_enc proto _)]
    simp only [Connect.decodeWithProtocol, DecE.bind_def]
    rw [if_neg (asU8_not_gt hproto)]
    rw [DecE.bind_eval (readU8_cons _ _)]
    rw [if_neg (show ¬(F % 2 ≠ 0) from by omega)]
    rw [DecE.bind_eval (readU16_enc hka _)]
    rw [DecE.bind_eval (readString_enc hcidu hcidl _)]
    rw [if_pos (show F / 4 % 2 ≠ 0 from by omega)]
    simp only [DecE.bind_assoc]
    rw [DecE.bind_eval (readString_enc (topicNameValid_utf8 hwt) hwtl _)]
    rw [DecE.bind_eval (readBytes_enc hwml _)]
    rw [g3, DecE.bind_eval (show DecE.ofExcept (QoS.fromU8 q.toU8) _ = _ from by
      rw [qosFromU8_toU8]; rfl)]
    rw [DecE.bind_eval (show DecE.ofExcept (topicNameCheck t) _ = _ from by
      rw [topicNameCheck_ok hwt]; rfl)]
    rw [DecE.bind_pure]
    rw [if_pos (show F / 128 % 2 ≠ 0 from by omega)]
    simp only [DecE.bind_assoc]
    rw [DecE.bind_eval (readString_enc huu hul _)]
    rw [DecE.bind_pure]
    rw [if_pos (show F / 64 % 2 ≠ 0 from by omega)]
    simp only [DecE.bind_assoc]
    rw [DecE.bind_eval (readBytes_enc hpl _)]
    rw [DecE.bind_pure]
    simp only [DecE.pure_def, DecE.pure, f1, g5]

/-- Wire size of a user-property list inside a properties block. -/
def upsLen (ups : List (List Nat × List Nat)) : Nat :=
  (ups.map (fun kv => 5 + kv.1.length + kv.2.length)).sum

/-- Encoding of a user-property list inside a properties block. -/
def upsEnc (ups : List (List Nat × List Nat)) : List Nat :=
  (ups.map (fun kv => 38 :: (writeString kv.1 ++ writeString kv.2))).flatten

theorem bodyLen_none (ups : List (List Nat × List Nat)) :
    (V5.AckProperties.mk none ups).bodyLen = upsLen ups := by
  simp [V5.AckProperties.bodyLen, upsLen]

theorem bodyLen_some (s : List Nat) (ups : List (List Nat × List Nat)) :
    (V5.AckProperties.mk (some s) ups).bodyLen = 3 + s.length + upsLen ups := by
  simp [V5.AckProperties.bodyLen, upsLen]

theorem ackPropsLoop_zero (typ : V5.PacketType) (acc : V5.AckProperties)
    (s : List Nat) : V5.ackPropsLoop typ 0 acc s = .ok (acc, s) := by
  rw [V5.ackPropsLoop.eq_def]
  simp

/-- One `UserProperty` step of the ack property loop. -/
theorem ackPropsLoop_userProp (typ : V5.PacketType) (counter : Nat)
    (acc : V5.AckProperties) {k v : List Nat} (s2 : List Nat)
    (hk1 : utf8Valid k = true) (hk2 : k.length < 65536)
    (hv1 : utf8Valid v = true) (hv2 : v.length < 65536)
    (hguard : 5 + k.length + v.length ≤ counter) (hne : counter ≠ 0) :
    V5.ackPropsLoop typ counter acc
      (38 :: (writeString k ++ (writeString v ++ s2))) =
    V5.ackPropsLoop typ (counter - (5 + k.length + v.length))
      { acc with user_properties := acc.user_properties ++ [(k, v)] } s2 := by
  conv_lhs => rw [V5.ackPropsLoop.eq_def]
  simp only [hne, if_false, readString_enc hk1 hk2, readString_enc hv1 hv2]
  rw [if_neg (show ¬((38 : Nat) = 31) from by decide)]
  rw [if_pos trivial]
  rw [if_pos hguard]

/-- One `ReasonString` step of the ack property loop. -/
theorem ackPropsLoop_reasonString (typ : V5.PacketType) (counter : Nat)
    (acc : V5.AckProperties) {s : List Nat} (s2 : List Nat)
    (hs1 : utf8Valid s = true) (hs2 : s.length < 65536)
    (hnone : acc.reason_string = none)
    (hguard : 3 + s.length ≤ counter) (hne : counter ≠ 0) :
    V5.ackPropsLoop typ counter acc (31 :: (writeString s ++ s2)) =
    V5.ackPropsLoop typ (counter - (3 + s.length))
      { acc with reason_string := some s } s2 := by
  conv_lhs => rw [V5.ackPropsLoop.eq_def]
  simp only [hne, if_false, readString_enc hs1 hs2]
  rw [if_pos trivial]
  rw [hnone]
  rw [if_neg (show ¬((none : Option (List Nat)).isSome = true) from by decide)]
  rw [if_pos hguard]

/-- The ack property loop over an encoded user-property list exactly
filling the counter. -/
theorem ackPropsLoop_ups (typ : V5.PacketType) (ups : List (List Nat × List Nat))
    (acc : V5.AckProperties) (rest : List Nat)
    (h : ∀ kv ∈ ups, (utf8Valid kv.1 = true ∧ kv.1.length < 65536) ∧
      (utf8Valid kv.2 = true ∧ kv.2.length < 65536)) :
    V5.ackPropsLoop typ (upsLen ups) acc (upsEnc ups ++ rest) =
      .ok ({ acc with user_properties := acc.user_properties ++ ups }, rest) := by
  induction ups generalizing acc with
  | nil =>
    simp only [upsLen, upsEnc, List.map_nil, List.sum_nil, List.flatten_nil,
      List.nil_append]
    rw [ackPropsLoop_zero]
    simp
  | cons kv tl ih =>
    obtain ⟨⟨hk1, hk2⟩, hv1, hv2⟩ := h kv (List.mem_cons_self kv tl)
    have hlen : upsLen (kv :: tl) = 5 + kv.1.length + kv.2.length + upsLen tl := by
      simp [upsLen]
    have henc : upsEnc (kv :: tl) ++ rest =
        38 :: (writeString kv.1 ++ (writeString kv.2 ++ (upsEnc tl ++ rest))) := by
      simp [upsEnc]
    rw [hlen, henc]
    rw [ackPropsLoop_userProp typ _ acc _ hk1 hk2 hv1 hv2 (by omega) (by omega)]
    rw [show 5 + kv.1.length + kv.2.length + upsLen tl -
      (5 + kv.1.length + kv.2.length) = upsLen tl from by omega]
    rw [ih _ (fun kv hm => h kv (List.mem_cons_of_mem _ hm))]
    simp

/-- Round trip of the ack property block. -/
theorem ackProps_decode_enc (typ : V5.PacketType) (props : V5.AckProperties)
    (h : WfAckProperties props) (rest : List Nat) :
    V5.AckProperties.decode typ (V5.AckProperties.encode props ++ rest) =
      .ok (props, rest) := by
  obtain ⟨hrs, hups, hbound⟩ := h
  obtain ⟨rs, ups⟩ := props
  rcases rs with _ | s
  · rw [bodyLen_none] at hbound
    have henc : V5.AckProperties.encode ⟨none, ups⟩ ++ rest =
        encodeVarInt (upsLen ups) ++ (upsEnc ups ++ rest) := by
      simp [V5.AckProperties.encode, bodyLen_none, upsEnc]
    rw [henc]
    simp only [V5.AckProperties.decode, decodeVarInt_enc hbound]
    rw [ackPropsLoop_ups typ ups _ rest hups]
    simp [V5.AckProperties.default]
  · obtain ⟨hs1, hs2⟩ := hrs s rfl
    rw [bodyLen_some] at hbound
    have henc : V5.AckProperties.encode ⟨some s, ups⟩ ++ rest =
        encodeVarInt (3 + s.length + upsLen ups) ++
          (31 :: (writeString s ++ (upsEnc ups ++ rest))) := by
      simp [V5.AckProperties.encode, bodyLen_some, upsEnc, writeString]
    rw [henc]
    simp only [V5.AckProperties.decode, decodeVarInt_enc hbound]
    rw [ackPropsLoop_reasonString typ _ _ _ hs1 hs2 rfl (by omega) (by omega)]
    rw [show 3 + s.length + upsLen ups - (3 + s.length) = upsLen ups from by omega]
    rw [ackPropsLoop_ups typ ups _ rest hups]
    simp [V5.AckProperties.default]

/-- Round trip of the v5 Puback body, against a header whose remaining
length is the encoded length. -/
theorem puback_decode_encode (p : V5.Puback) (h : WfPuback p) :
    V5.Puback.decode (pubackHeader p.encodeLen) (V5.Puback.encode p) =
      .ok (p, []) := by
  obtain ⟨h0, hlt, hwf⟩ := h
  by_cases hd : p.properties = V5.AckProperties.default
  · by_cases hr : p.reason_code = .success
    · have he : V5.Puback.encode p = writeU16 p.pid ++ [] := by
        simp [V5.Puback.encode, hd, hr]
      have hl : p.encodeLen = 2 := by simp [V5.Puback.encodeLen, hd, hr]
      rw [he, hl]
      simp only [V5.Puback.decode, DecE.bind_def, pubackHeader]
      rw [DecE.bind_eval (liftD_ok (readPid_enc h0 hlt []))]
      rw [if_pos trivial]
      obtain ⟨pid, rc, props⟩ := p
      simp only at hd hr
      rw [hd, hr]
      rfl
    · have he : V5.Puback.encode p = writeU16 p.pid ++ ([p.reason_code.toU8] ++ []) := by
        simp [V5.Puback.encode, hd, hr]
      have hl : p.encodeLen = 3 := by simp [V5.Puback.encodeLen, hd, hr]
      rw [he, hl]
      simp only [V5.Puback.decode, DecE.bind_def, pubackHeader]
      rw [DecE.bind_eval (liftD_ok (readPid_enc h0 hlt _))]
      rw [if_neg (by omega), if_pos trivial]
      simp only [List.cons_append, List.nil_append]
      rw [DecE.bind_eval (liftD_ok (readU8_cons _ _))]
      simp only [pubackFromU8_toU8]
      obtain ⟨pid, rc, props⟩ := p
      simp only at hd
      rw [hd]
      rfl
  · have hbl : 1 ≤ varIntLen p.properties.bodyLen := by
      simp only [varIntLen]
      split_ifs <;> omega
    have he : V5.Puback.encode p = writeU16 p.pid ++
        (p.reason_code.toU8 :: (V5.AckProperties.encode p.properties ++ [])) := by
      simp [V5.Puback.encode, hd]
    have hl : p.encodeLen = 3 + p.properties.encodeLen := by
      simp [V5.Puback.encodeLen, hd]
    rw [he, hl]
    simp only [V5.Puback.decode, DecE.bind_def, pubackHeader]
    rw [DecE.bind_eval (liftD_ok (readPid_enc h0 hlt _))]
    rw [if_neg (by simp [V5.AckProperties.encodeLen] at *; omega),
      if_neg (by simp [V5.AckProperties.encodeLen] at *; omega)]
    rw [DecE.bind_eval (liftD_ok (readU8_cons _ _))]
    simp only [pubackFromU8_toU8]
    rw [DecE.bind_eval (ackProps_decode_enc .puback p.properties hwf [])]
    obtain ⟨pid, rc, props⟩ := p
    rfl

/-- C1: for every valid packet value, decoding the bytes produced by
encoding it yields an equal value: the v3 Connect body round-trips
through `encode` and `decode`, and the v5 Puback body round-trips
against a fixed header whose remaining length is the encoded length. -/
theorem packet_body_roundtrip :
    (∀ c : Connect, WfConnect c →
      Connect.decode (Connect.encode c) = .ok (c, [])) ∧
    (∀ p : V5.Puback, WfPuback p →
      V5.Puback.decode (pubackHeader p.encodeLen) (V5.Puback.encode p) =
        .ok (p, [])) :=
  ⟨connect_decode_encode, puback_decode_encode⟩

/-- Witness for C1: a Connect with will, username and password, and a
Puback with a non-success reason and nonempty properties. -/
theorem packet_body_roundtrip_witness :
    WfConnect ⟨.V311, true, 10, [116], some ⟨.Level1, false, [47, 97], [111]⟩,
      some [114], some [109]⟩ ∧
    WfPuback ⟨10, .noMatchingSubscribers, ⟨some [97], [([107], [118])]⟩⟩ ∧
    Connect.decode (Connect.encode ⟨.V311, true, 10, [116],
      some ⟨.Level1, false, [47, 97], [111]⟩, some [114], some [109]⟩) =
      .ok (⟨.V311, true, 10, [116], some ⟨.Level1, false, [47, 97], [111]⟩,
        some [114], some [109]⟩, []) ∧
    V5.Puback.decode
      (pubackHeader (V5.Puback.encodeLen ⟨10, .noMatchingSubscribers,
        ⟨some [97], [([107], [118])]⟩⟩))
      (V5.Puback.encode ⟨10, .noMatchingSubscribers,
        ⟨some [97], [([107], [118])]⟩⟩) =
      .ok (⟨10, .noMatchingSubscribers, ⟨some [97], [([107], [118])]⟩⟩, []) := by
  have hwf1 : WfConnect ⟨.V311, true, 10, [116],
      some ⟨.Level1, false, [47, 97], [111]⟩, some [114], some [109]⟩ := by
    refine ⟨by decide, by decide, by decide, ?_, ?_, ?_⟩ <;>
      (intro x hx; cases hx; decide)
  have hwf2 : WfPuback ⟨10, .noMatchingSubscribers,
      ⟨some [97], [([107], [118])]⟩⟩ := by
    refine ⟨by decide, by decide, ?_, ?_, by decide⟩
    · intro x hx
      cases hx
      decide
    · decide
  exact ⟨hwf1, hwf2, packet_body_roundtrip.1 _ hwf1, packet_body_roundtrip.2 _ hwf2⟩

/-- C2 (amended): the slice API and the streaming API agree on valid
byte sequences. For every valid encoding of a packet — the fixed header
parses, the declared remaining length matches the body exactly, and the
slice decoder consumes the whole sequence — the slice API returns the
packet and the streaming assembler, fed the bytes in chunks under any
partition, delivers the same packet with nothing left over. (The
original claim's "identical outcomes in general" fails: on an invalid
sequence whose inner lengths overrun the declared remaining length the
two APIs diverge, see the counterexample.) -/
theorem slice_stream_agree_on_valid (bytes : List Nat) (pkt : Packet)
    (h : ValidEncoding bytes pkt) :
    Packet.decode bytes = .ok (some pkt) ∧
      ∀ cs : List (List Nat), cs.flatten = bytes →
        feedChunks initPollSt cs = .ready pkt [] := by
  obtain ⟨hdr, rest, hh, hlen, hfull⟩ := h
  constructor
  · simp only [Packet.decode, hfull]
  · intro cs hcs
    rw [feedChunks_flatten cs initPollSt wf_init, hcs]
    exact feed_init_of_valid ⟨hdr, rest, hh, hlen, hfull⟩

/-- Counterexample for C2 as frozen: the repository's own
`test_inner_length_too_long` vector — a Connect whose fixed header
declares 20 remaining bytes but whose inner fields need more — makes the
slice API answer `Ok(None)` (more bytes could help) while the streaming
assembler, which trusts the declared remaining length, fails with
`InvalidRemainingLength`; the two APIs do not produce identical outcomes
on every byte sequence. -/
theorem slice_stream_diverge :
    Packet.decode
        [16, 20, 0, 4, 77, 81, 84, 84, 4, 64, 0, 10,
          0, 4, 116, 101, 115, 116, 0, 3, 109, 113] = .ok none ∧
      feedChunks initPollSt
          [[16, 20, 0, 4, 77, 81, 84, 84, 4, 64, 0, 10,
            0, 4, 116, 101, 115, 116, 0, 3, 109, 113]] =
        .failed .invalidRemainingLength := by
  constructor <;> decide

/-- Witness for C2: the four-byte Puback `[64, 2, 0, 10]` is a valid
encoding; sliced it decodes to `Puback(10)`, and fed as the chunks
`[64] / [2, 0] / [10]` the assembler delivers the same packet with empty
leftover. -/
theorem slice_stream_agree_on_valid_witness :
    ValidEncoding [64, 2, 0, 10] (.puback 10) ∧
      Packet.decode [64, 2, 0, 10] = .ok (some (.puback 10)) ∧
      feedChunks initPollSt [[64], [2, 0], [10]] = .ready (.puback 10) [] := by
  have hv : ValidEncoding [64, 2, 0, 10] (.puback 10) :=
    ⟨⟨.puback, false, .Level0, false, 2⟩, [0, 10], by decide, by decide,
      by decide⟩
  exact ⟨hv, (slice_stream_agree_on_valid [64, 2, 0, 10] (.puback 10) hv).1,
    (slice_stream_agree_on_valid [64, 2, 0, 10] (.puback 10) hv).2
      [[64], [2, 0], [10]] (by decide)⟩

/-- C6: truncation safety. Every strict prefix of a valid packet
encoding makes the slice API return `Ok(None)` and the streaming
assembler report that more bytes are needed — end-of-input at a legal
boundary, never a malformed-packet error. -/
theorem truncation_safety (bytes : List Nat) (pkt : Packet) (p : List Nat)
    (hv : ValidEncoding bytes pkt) (hp : p <+: bytes)
    (hplen : p.length < bytes.length) :
    Packet.decode p = .ok none ∧ ∃ st, feed initPollSt p = .needMore st := by
  obtain ⟨hdr, rest, hh, hlenr, hfull⟩ := hv
  have hpre : decodeFull p = .error .unexpectedEof :=
    lawful_decodeFull.pre bytes pkt hfull p hp hplen
  constructor
  · simp only [Packet.decode, hpre]
    rfl
  · obtain ⟨ch, hc, hrun⟩ := lawful_headerDecode.consume bytes hdr rest hh
    have hchpre : ch <+: bytes := by rw [hc]; exact List.prefix_append ch rest
    rcases Nat.lt_or_ge p.length ch.length with hl | hl
    · have hpch : p <+: ch := List.prefix_of_prefix_length_le hp hchpre (le_of_lt hl)
      have hpd : Header.decode p = .error .unexpectedEof :=
        lawful_headerDecode.pre ch hdr hrun p hpch hl
      refine ⟨.header p, ?_⟩
      simp only [initPollSt, feed, List.nil_append, hpd]
      rfl
    · have hchp : ch <+: p := List.prefix_of_prefix_length_le hchpre hp hl
      obtain ⟨p2, hp2⟩ := hchp
      have hd2 : Header.decode p = .ok (hdr, p2) := by
        rw [← hp2]
        exact lawful_headerDecode.ext ch hdr hrun p2
      have hlens : p2.length < rest.length := by
        have h1 : p.length = ch.length + p2.length := by
          rw [← hp2, List.length_append]
        have h2 : bytes.length = ch.length + rest.length := by
          rw [hc, List.length_append]
        omega
      cases hbe : buildEmpty hdr with
      | some pkt' =>
        exfalso
        have hps := buildEmpty_some hbe
        have hbody : bodySlice hdr rest = .ok (pkt, []) := by
          unfold decodeFull at hfull
          rw [DecE.bind_eval hh] at hfull
          exact hfull
        rw [hps] at hbody
        simp only [DecE.pure_apply, Except.ok.injEq, Prod.mk.injEq] at hbody
        rw [hbody.2] at hlens
        simp at hlens
      | none =>
        refine ⟨.body hdr p2, ?_⟩
        simp only [initPollSt, feed, List.nil_append, hd2, hbe]
        simp only [bodyFeed, List.nil_append]
        rw [if_pos (by omega)]

/-- Witness for C6: `[64, 2, 0]` is a strict prefix of the valid Puback
`[64, 2, 0, 10]`; the slice API answers `Ok(None)` and the assembler
asks for more bytes. -/
theorem truncation_safety_witness :
    ValidEncoding [64, 2, 0, 10] (.puback 10) ∧
      [64, 2, 0] <+: [64, 2, 0, 10] ∧
      ([64, 2, 0] : List Nat).length < ([64, 2, 0, 10] : List Nat).length ∧
      Packet.decode [64, 2, 0] = .ok none ∧
      ∃ st, feed initPollSt [64, 2, 0] = .needMore st := by
  have hv : ValidEncoding [64, 2, 0, 10] (.puback 10) :=
    ⟨⟨.puback, false, .Level0, false, 2⟩, [0, 10], by decide, by decide,
      by decide⟩
  have hc := truncation_safety [64, 2, 0, 10] (.puback 10) [64, 2, 0] hv
    (by decide) (by decide)
  exact ⟨hv, by decide, by decide, hc.1, hc.2⟩

/-- Witness for C7: reason byte `0x11` is rejected by Puback at
remaining length 3 with pid 10. -/
theorem ack_reason_code_closed_sets_witness :
    ((3 : Nat) ≠ 2) ∧ ((0 : Nat) * 256 + 10 ≠ 0) ∧
    V5.PubackReasonCode.fromU8 17 = none ∧
    V5.Puback.decode (pubackHeader 3) [0, 10, 17] =
      .error (.invalidReasonCode .puback 17) :=
  ⟨by decide, by decide, by decide,
   ack_reason_code_closed_sets.2.2.2.2.1 3 0 10 17 [] (by decide) (by decide)
     (by decide)⟩

end Mqtt
